import Mathlib

/-!
Shallow embedding of the DnDStats exact probability engine
(RandomVariable.py, Common.py, DamageSum.py, OutcomeRV.py, Attack.py,
MultiAttack.py) together with theorems settling the specification claims.

Probabilities are modelled as rationals, mirroring the use of
fractions.Fraction in the source.  Integer supports are modelled as Int.
-/

/-- Mirrors RandomVariable.summation: sum of f over the integer interval
from lb to ub inclusive (empty when ub is below lb, as in range). -/
def summation (lb ub : Int) (f : Int → ℚ) : ℚ :=
  (Finset.Icc lb ub).sum f

/-- Mirrors RandomVariable.convolution: the x-indexed sum of
f1 (x - y) * f2 y for y from lb to ub. -/
def convolution (f1 f2 : Int → ℚ) (lb ub : Int) : Int → ℚ :=
  fun x => summation lb ub (fun y => f1 (x - y) * f2 y)

/-- A RandomVariable after set_pdf has been called: integer bounds and the
stored probability rule.  Every random variable built by the library has
its rule set at construction time (Common.py) or by the deriving
operation, so the rule is modelled as a total function; the variant in
which the rule may still be unset is modelled separately by
pdf_with_rule below. -/
structure RandomVariable where
  lower_bound : Int
  upper_bound : Int
  pdf_ : Int → ℚ

/-- Mirrors RandomVariable.pdf: zero outside the declared bounds, the
stored rule inside them. -/
def RandomVariable.pdf (X : RandomVariable) (x : Int) : ℚ :=
  if x < X.lower_bound then 0
  else if x > X.upper_bound then 0
  else X.pdf_ x

/-- Mirrors RandomVariable.cdf in the case used throughout the library
(no closed-form cdf_ is ever installed by the source): prefix summation
of the pdf method from the lower bound. -/
def RandomVariable.cdf (X : RandomVariable) (x : Int) : ℚ :=
  summation X.lower_bound x X.pdf

/-- Mirrors RandomVariable.get_pdf_dict followed by set_pdf inside
memoize: the new rule tabulates the pdf method.  The Python dict is
only ever consulted through the pdf method, which returns 0 before
reaching the rule outside the bounds, so tabulating the clamped pdf on
all of Int is observationally identical to the finite dict. -/
def RandomVariable.memoize (X : RandomVariable) : RandomVariable :=
  { lower_bound := X.lower_bound, upper_bound := X.upper_bound,
    pdf_ := fun x => X.pdf x }

/-- Mirrors RandomVariable.copy: a fresh object with the same bounds
whose rule tabulates the pdf method, exactly as in memoize. -/
def RandomVariable.copy (X : RandomVariable) : RandomVariable :=
  { lower_bound := X.lower_bound, upper_bound := X.upper_bound,
    pdf_ := fun x => X.pdf x }

/-- Mirrors RandomVariable.expected_value with an explicit integrand f
(the source default is the identity). -/
def RandomVariable.expected_value (X : RandomVariable) (f : Int → ℚ) : ℚ :=
  summation X.lower_bound X.upper_bound (fun x => f x * X.pdf x)

/-- Mirrors RandomVariable.variance. -/
def RandomVariable.variance (X : RandomVariable) : ℚ :=
  X.expected_value (fun x => (x : ℚ) ^ 2) - X.expected_value (fun x => (x : ℚ)) ^ 2

/-- Mirrors RandomVariable.max_two_trials. -/
def RandomVariable.max_two_trials (X : RandomVariable) : RandomVariable :=
  { lower_bound := X.lower_bound, upper_bound := X.upper_bound,
    pdf_ := fun x => 2 * X.pdf x * X.cdf (x - 1) + X.pdf x ^ 2 }

/-- Mirrors RandomVariable.min_two_trials. -/
def RandomVariable.min_two_trials (X : RandomVariable) : RandomVariable :=
  { lower_bound := X.lower_bound, upper_bound := X.upper_bound,
    pdf_ := fun x => 2 * X.pdf x - (2 * X.pdf x * X.cdf (x - 1) + X.pdf x ^ 2) }

/-- Mirrors RandomVariable.max_three_trials. -/
def RandomVariable.max_three_trials (X : RandomVariable) : RandomVariable :=
  { lower_bound := X.lower_bound, upper_bound := X.upper_bound,
    pdf_ := fun x =>
      3 * X.pdf x * X.cdf (x - 1) ^ 2 + 3 * X.pdf x ^ 2 * X.cdf (x - 1) + X.pdf x ^ 3 }

/-- Mirrors RandomVariable.add_rv: bounds add, and the rule is the
convolution of the two pdf methods over the enclosing interval. -/
def RandomVariable.add_rv (X Y : RandomVariable) : RandomVariable :=
  { lower_bound := X.lower_bound + Y.lower_bound,
    upper_bound := X.upper_bound + Y.upper_bound,
    pdf_ := convolution X.pdf Y.pdf
      (min X.lower_bound Y.lower_bound) (max X.upper_bound Y.upper_bound) }

/-- Mirrors RandomVariable.half_round_down: math.floor of bound/2 is
floor division, Int.fdiv. -/
def RandomVariable.half_round_down (X : RandomVariable) : RandomVariable :=
  { lower_bound := Int.fdiv X.lower_bound 2,
    upper_bound := Int.fdiv X.upper_bound 2,
    pdf_ := fun x => X.pdf (2 * x) + X.pdf (2 * x + 1) }

/-- Mirrors the Dice constructor in Common.py. -/
def Dice (die_size : Int) : RandomVariable :=
  { lower_bound := 1, upper_bound := die_size,
    pdf_ := fun _ => 1 / (die_size : ℚ) }

/-- Mirrors the DiceReroll constructor in Common.py. -/
def DiceReroll (die_size reroll_max : Int) : RandomVariable :=
  { lower_bound := 1, upper_bound := die_size,
    pdf_ := fun x =>
      if x > reroll_max then
        1 / (die_size : ℚ) + (reroll_max : ℚ) / (die_size : ℚ) * (1 / (die_size : ℚ))
      else (reroll_max : ℚ) / (die_size : ℚ) * (1 / (die_size : ℚ)) }

/-- Mirrors the Constant constructor in Common.py. -/
def Constant (value : Int) : RandomVariable :=
  { lower_bound := value, upper_bound := value, pdf_ := fun _ => 1 }

/-- Mirrors the Uniform constructor in Common.py. -/
def Uniform (lb ub : Int) : RandomVariable :=
  { lower_bound := lb, upper_bound := ub,
    pdf_ := fun _ => 1 / ((ub : ℚ) - (lb : ℚ) + 1) }

/-- Total probability mass of a random variable over its declared
bounds. -/
def sumPdf (X : RandomVariable) : ℚ :=
  summation X.lower_bound X.upper_bound X.pdf

/-- Mirrors RandomVariable.pdf on a state in which the rule may still be
unset (pdf_ is None): out-of-bounds queries return 0 without consulting
the rule, in-bounds queries raise the PDF-not-defined error when the
rule is unset. -/
def pdf_with_rule (lower_bound upper_bound : Int)
    (rule : Option (Int → ℚ)) (x : Int) : Except String ℚ :=
  if x < lower_bound then Except.ok 0
  else if x > upper_bound then Except.ok 0
  else
    match rule with
    | some f => Except.ok (f x)
    | none => Except.error ("PDF not defined")

theorem pdf_memoize (X : RandomVariable) (x : Int) :
    X.memoize.pdf x = X.pdf x := by
  unfold RandomVariable.memoize RandomVariable.pdf
  by_cases h1 : x < X.lower_bound
  · simp [h1]
  · by_cases h2 : x > X.upper_bound
    · simp [h1, h2]
    · simp [h1, h2]

theorem cdf_memoize (X : RandomVariable) (x : Int) :
    X.memoize.cdf x = X.cdf x := by
  show (Finset.Icc X.lower_bound x).sum X.memoize.pdf
      = (Finset.Icc X.lower_bound x).sum X.pdf
  exact Finset.sum_congr rfl (fun y _ => pdf_memoize X y)

theorem expected_value_memoize (X : RandomVariable) (f : Int → ℚ) :
    X.memoize.expected_value f = X.expected_value f := by
  show (Finset.Icc X.lower_bound X.upper_bound).sum (fun x => f x * X.memoize.pdf x)
      = (Finset.Icc X.lower_bound X.upper_bound).sum (fun x => f x * X.pdf x)
  exact Finset.sum_congr rfl (fun y _ => by rw [pdf_memoize])

theorem memoize_idem (X : RandomVariable) : X.memoize.memoize = X.memoize := by
  unfold RandomVariable.memoize
  simp only [RandomVariable.mk.injEq, true_and]
  funext x
  exact pdf_memoize X x

/-- C8: memoize is a pure optimization: it leaves pdf and cdf unchanged
at every integer point (inside or outside the bounds), leaves the
expected value (for any integrand, in particular the identity) and the
variance unchanged, and applying it a second time changes nothing. -/
theorem C8_memoize_pure (X : RandomVariable) :
    (∀ x : Int, X.memoize.pdf x = X.pdf x) ∧
    (∀ x : Int, X.memoize.cdf x = X.cdf x) ∧
    (∀ f : Int → ℚ, X.memoize.expected_value f = X.expected_value f) ∧
    X.memoize.variance = X.variance ∧
    X.memoize.memoize = X.memoize := by
  refine ⟨pdf_memoize X, cdf_memoize X, expected_value_memoize X, ?_, memoize_idem X⟩
  unfold RandomVariable.variance
  rw [expected_value_memoize, expected_value_memoize]

/-- C10: the pdf method is total outside the declared bounds, returning
0 there whatever the stored rule is (in particular without consulting
it), and it produces the PDF-not-defined error exactly when the query is
inside the bounds and no rule has been set. -/
theorem C10_pdf_total_outside_bounds (lb ub : Int) (rule : Option (Int → ℚ)) (x : Int) :
    ((x < lb ∨ x > ub) →
      pdf_with_rule lb ub rule x = Except.ok 0 ∧
      ∀ rule2 : Option (Int → ℚ), pdf_with_rule lb ub rule x = pdf_with_rule lb ub rule2 x) ∧
    (pdf_with_rule lb ub rule x = Except.error ("PDF not defined") ↔
      (lb ≤ x ∧ x ≤ ub ∧ rule = none)) := by
  constructor
  · intro h
    rcases h with h | h
    · constructor
      · simp [pdf_with_rule, h]
      · intro rule2; simp [pdf_with_rule, h]
    · constructor
      · unfold pdf_with_rule
        by_cases h1 : x < lb
        · simp [h1]
        · simp [h1, h]
      · intro rule2
        unfold pdf_with_rule
        by_cases h1 : x < lb
        · simp [h1]
        · simp [h1, h]
  · constructor
    · intro h
      unfold pdf_with_rule at h
      by_cases h1 : x < lb
      · simp [h1] at h
      · by_cases h2 : x > ub
        · simp [h1, h2] at h
        · cases hr : rule with
          | some f => rw [hr] at h; simp [h1, h2] at h
          | none => exact ⟨le_of_not_lt h1, le_of_not_lt h2, rfl⟩
    · rintro ⟨h1, h2, h3⟩
      unfold pdf_with_rule
      rw [h3]
      simp [not_lt.mpr h1, not_lt.mpr h2]

theorem C10_witness :
    pdf_with_rule 0 5 (none : Option (Int → ℚ)) 7 = Except.ok 0 ∧
    pdf_with_rule 0 5 (none : Option (Int → ℚ)) 3 = Except.error ("PDF not defined") :=
  ⟨((C10_pdf_total_outside_bounds 0 5 none 7).1 (Or.inr (by decide))).1,
   (C10_pdf_total_outside_bounds 0 5 none 3).2.mpr ⟨by decide, by decide, rfl⟩⟩

theorem pdf_eq_zero_of_lt {X : RandomVariable} {x : Int}
    (h : x < X.lower_bound) : X.pdf x = 0 := by
  unfold RandomVariable.pdf
  simp [h]

theorem pdf_eq_zero_of_gt {X : RandomVariable} {x : Int}
    (h : X.upper_bound < x) : X.pdf x = 0 := by
  unfold RandomVariable.pdf
  by_cases h1 : x < X.lower_bound
  · simp [h1]
  · simp [h1, h]

theorem pdf_in_bounds {X : RandomVariable} {x : Int}
    (h1 : X.lower_bound ≤ x) (h2 : x ≤ X.upper_bound) : X.pdf x = X.pdf_ x := by
  unfold RandomVariable.pdf
  simp [not_lt.mpr h1, not_lt.mpr h2]

theorem sum_pdf_extend (X : RandomVariable) {a b : Int}
    (ha : a ≤ X.lower_bound) (hb : X.upper_bound ≤ b) :
    (Finset.Icc a b).sum X.pdf = sumPdf X := by
  refine (Finset.sum_subset (Finset.Icc_subset_Icc ha hb) ?_).symm
  intro x _ hx
  rw [Finset.mem_Icc] at hx
  push_neg at hx
  by_cases hlt : x < X.lower_bound
  · exact pdf_eq_zero_of_lt hlt
  · exact pdf_eq_zero_of_gt (hx (not_lt.mp hlt))

theorem sum_shift (f : Int → ℚ) (a b y : Int) :
    (Finset.Icc a b).sum (fun x => f (x - y)) = (Finset.Icc (a - y) (b - y)).sum f := by
  have hmap : (Finset.Icc (a - y) (b - y)).map (addRightEmbedding y) = Finset.Icc a b := by
    rw [Finset.map_add_right_Icc]
    congr 1 <;> ring
  rw [← hmap, Finset.sum_map]
  refine Finset.sum_congr rfl ?_
  intro z _
  simp [addRightEmbedding]

theorem sum_Icc_succ_top_int {a b : Int} (hab : a ≤ b + 1) (f : Int → ℚ) :
    (Finset.Icc a (b + 1)).sum f = (Finset.Icc a b).sum f + f (b + 1) := by
  have hins : Finset.Icc a (b + 1) = insert (b + 1) (Finset.Icc a b) := by
    ext z
    simp only [Finset.mem_Icc, Finset.mem_insert]
    omega
  rw [hins, Finset.sum_insert (by simp)]
  ring

theorem add_rv_pdf_eq (X Y : RandomVariable) (x : Int) :
    (X.add_rv Y).pdf x
      = (Finset.Icc Y.lower_bound Y.upper_bound).sum (fun y => X.pdf (x - y) * Y.pdf y) := by
  have hsub : (Finset.Icc (min X.lower_bound Y.lower_bound)
        (max X.upper_bound Y.upper_bound)).sum (fun y => X.pdf (x - y) * Y.pdf y)
      = (Finset.Icc Y.lower_bound Y.upper_bound).sum (fun y => X.pdf (x - y) * Y.pdf y) := by
    refine (Finset.sum_subset
      (Finset.Icc_subset_Icc (min_le_right _ _) (le_max_right _ _)) ?_).symm
    intro y _ hy
    rw [Finset.mem_Icc] at hy
    push_neg at hy
    by_cases hlt : y < Y.lower_bound
    · rw [pdf_eq_zero_of_lt hlt, mul_zero]
    · rw [pdf_eq_zero_of_gt (hy (not_lt.mp hlt)), mul_zero]
  by_cases h1 : x < X.lower_bound + Y.lower_bound
  · rw [pdf_eq_zero_of_lt (show x < (X.add_rv Y).lower_bound from h1)]
    symm
    refine Finset.sum_eq_zero ?_
    intro y hy
    rw [Finset.mem_Icc] at hy
    rw [pdf_eq_zero_of_lt (show x - y < X.lower_bound by omega), zero_mul]
  · by_cases h2 : X.upper_bound + Y.upper_bound < x
    · rw [pdf_eq_zero_of_gt (show (X.add_rv Y).upper_bound < x from h2)]
      symm
      refine Finset.sum_eq_zero ?_
      intro y hy
      rw [Finset.mem_Icc] at hy
      rw [pdf_eq_zero_of_gt (show X.upper_bound < x - y by omega), zero_mul]
    · rw [pdf_in_bounds (show (X.add_rv Y).lower_bound ≤ x from not_lt.mp h1)
        (show x ≤ (X.add_rv Y).upper_bound from not_lt.mp h2)]
      show convolution X.pdf Y.pdf _ _ x = _
      unfold convolution summation
      exact hsub

theorem sumPdf_add_rv (X Y : RandomVariable) :
    sumPdf (X.add_rv Y) = sumPdf X * sumPdf Y := by
  have step1 : sumPdf (X.add_rv Y)
      = (Finset.Icc (X.lower_bound + Y.lower_bound) (X.upper_bound + Y.upper_bound)).sum
          (fun x => (Finset.Icc Y.lower_bound Y.upper_bound).sum
            (fun y => X.pdf (x - y) * Y.pdf y)) := by
    unfold sumPdf summation
    exact Finset.sum_congr rfl (fun x _ => add_rv_pdf_eq X Y x)
  rw [step1, Finset.sum_comm]
  have step2 : ∀ y ∈ Finset.Icc Y.lower_bound Y.upper_bound,
      (Finset.Icc (X.lower_bound + Y.lower_bound) (X.upper_bound + Y.upper_bound)).sum
        (fun x => X.pdf (x - y) * Y.pdf y) = sumPdf X * Y.pdf y := by
    intro y hy
    rw [Finset.mem_Icc] at hy
    rw [← Finset.sum_mul, sum_shift, sum_pdf_extend X (by omega) (by omega)]
  rw [Finset.sum_congr rfl step2]
  exact (Finset.mul_sum (Finset.Icc Y.lower_bound Y.upper_bound) Y.pdf (sumPdf X)).symm

theorem cdf_recurrence (X : RandomVariable) (x : Int) :
    X.cdf x = X.cdf (x - 1) + X.pdf x := by
  unfold RandomVariable.cdf summation
  by_cases h : X.lower_bound ≤ x
  · have hs := sum_Icc_succ_top_int (show X.lower_bound ≤ (x - 1) + 1 by omega) X.pdf
    rw [show x - 1 + 1 = x by ring] at hs
    rw [hs]
  · rw [Finset.Icc_eq_empty (by omega), Finset.Icc_eq_empty (by omega),
      Finset.sum_empty, pdf_eq_zero_of_lt (by omega), add_zero]

theorem cdf_at_ub (X : RandomVariable) : X.cdf X.upper_bound = sumPdf X := by
  unfold RandomVariable.cdf sumPdf
  rfl

theorem cdf_before_lb (X : RandomVariable) {x : Int} (h : x < X.lower_bound) :
    X.cdf x = 0 := by
  unfold RandomVariable.cdf summation
  rw [Finset.Icc_eq_empty (by omega), Finset.sum_empty]

theorem sum_telescope_Icc (g : Int → ℚ) (lb ub : Int) (h : lb - 1 ≤ ub) :
    (Finset.Icc lb ub).sum (fun x => g x - g (x - 1)) = g ub - g (lb - 1) := by
  refine @Int.le_induction
    (fun w => (Finset.Icc lb w).sum (fun x => g x - g (x - 1)) = g w - g (lb - 1))
    (lb - 1) ?_ ?_ ub h
  · show (Finset.Icc lb (lb - 1)).sum (fun x => g x - g (x - 1)) = g (lb - 1) - g (lb - 1)
    rw [Finset.Icc_eq_empty (by omega), Finset.sum_empty, sub_self]
  · intro n hn ih
    show (Finset.Icc lb (n + 1)).sum (fun x => g x - g (x - 1)) = g (n + 1) - g (lb - 1)
    have hs := sum_Icc_succ_top_int (show lb ≤ n + 1 by omega) (fun x => g x - g (x - 1))
    rw [hs, ih, show n + 1 - 1 = n by ring]
    ring

theorem sum_pair_halves (f : Int → ℚ) (a b : Int) (h : a - 1 ≤ b) :
    (Finset.Icc a b).sum (fun x => f (2 * x) + f (2 * x + 1))
      = (Finset.Icc (2 * a) (2 * b + 1)).sum f := by
  refine @Int.le_induction
    (fun w => (Finset.Icc a w).sum (fun x => f (2 * x) + f (2 * x + 1))
      = (Finset.Icc (2 * a) (2 * w + 1)).sum f)
    (a - 1) ?_ ?_ b h
  · show (Finset.Icc a (a - 1)).sum (fun x => f (2 * x) + f (2 * x + 1))
      = (Finset.Icc (2 * a) (2 * (a - 1) + 1)).sum f
    rw [Finset.Icc_eq_empty (by omega), Finset.Icc_eq_empty (by omega),
      Finset.sum_empty, Finset.sum_empty]
  · intro n hn ih
    show (Finset.Icc a (n + 1)).sum (fun x => f (2 * x) + f (2 * x + 1))
      = (Finset.Icc (2 * a) (2 * (n + 1) + 1)).sum f
    have hs1 := sum_Icc_succ_top_int (show a ≤ n + 1 by omega)
      (fun x => f (2 * x) + f (2 * x + 1))
    rw [hs1, ih]
    have hIcc1 : Finset.Icc (2 * a) (2 * (n + 1) + 1)
        = Finset.Icc (2 * a) ((2 * n + 2) + 1) := by
      congr 1
      ring
    rw [hIcc1]
    have hs2 := sum_Icc_succ_top_int (show 2 * a ≤ (2 * n + 2) + 1 by omega) f
    rw [hs2]
    have hIcc2 : Finset.Icc (2 * a) (2 * n + 2)
        = Finset.Icc (2 * a) ((2 * n + 1) + 1) := by
      congr 1
      ring
    rw [hIcc2]
    have hs3 := sum_Icc_succ_top_int (show 2 * a ≤ (2 * n + 1) + 1 by omega) f
    rw [hs3]
    rw [show (2 * (n + 1) : Int) = (2 * n + 1) + 1 by ring,
      show ((2 * n + 1) + 1 + 1 : Int) = (2 * n + 2) + 1 by ring]
    ring

theorem fdiv2_facts (a : Int) :
    2 * Int.fdiv a 2 ≤ a ∧ a ≤ 2 * Int.fdiv a 2 + 1 := by
  have h := Int.fdiv_add_fmod a 2
  have h2 : Int.fmod a 2 = a % 2 := Int.fmod_eq_emod a (by norm_num)
  omega

theorem le_of_sumPdf_one {X : RandomVariable} (h : sumPdf X = 1) :
    X.lower_bound ≤ X.upper_bound := by
  by_contra hc
  push_neg at hc
  unfold sumPdf summation at h
  rw [Finset.Icc_eq_empty (by omega), Finset.sum_empty] at h
  exact absurd h (by norm_num)

theorem sumPdf_Dice (d : Int) (hd : 1 ≤ d) : sumPdf (Dice d) = 1 := by
  show (Finset.Icc (1 : Int) d).sum (Dice d).pdf = 1
  have hc : ∀ x ∈ Finset.Icc (1 : Int) d, (Dice d).pdf x = 1 / (d : ℚ) := by
    intro x hx
    rw [Finset.mem_Icc] at hx
    exact pdf_in_bounds hx.1 hx.2
  rw [Finset.sum_congr rfl hc, Finset.sum_const, Int.card_Icc]
  have hd0 : (d : ℚ) ≠ 0 := Int.cast_ne_zero.mpr (by omega)
  rw [nsmul_eq_mul]
  have hcast : ((d + 1 - 1).toNat : ℚ) = (d : ℚ) := by
    rw [show d + 1 - 1 = d by ring]
    rw [← Int.cast_natCast, Int.toNat_of_nonneg (by omega)]
  rw [hcast]
  field_simp

theorem sumPdf_DiceReroll (d r : Int) (hd : 1 ≤ d) (hr0 : 0 ≤ r) (hrd : r ≤ d) :
    sumPdf (DiceReroll d r) = 1 := by
  show (Finset.Icc (1 : Int) d).sum (DiceReroll d r).pdf = 1
  have hsplit : Finset.Icc (1 : Int) d = Finset.Icc 1 r ∪ Finset.Icc (r + 1) d := by
    ext z
    simp only [Finset.mem_Icc, Finset.mem_union]
    omega
  have hdisj : Disjoint (Finset.Icc (1 : Int) r) (Finset.Icc (r + 1) d) := by
    rw [Finset.disjoint_left]
    intro z hz1 hz2
    rw [Finset.mem_Icc] at hz1 hz2
    omega
  rw [hsplit, Finset.sum_union hdisj]
  have hlow : ∀ x ∈ Finset.Icc (1 : Int) r,
      (DiceReroll d r).pdf x = (r : ℚ) / (d : ℚ) * (1 / (d : ℚ)) := by
    intro x hx
    rw [Finset.mem_Icc] at hx
    rw [pdf_in_bounds (show (DiceReroll d r).lower_bound ≤ x from hx.1)
      (show x ≤ (DiceReroll d r).upper_bound by exact le_trans hx.2 hrd)]
    show (if x > r then _ else _) = _
    rw [if_neg (by omega)]
  have hhigh : ∀ x ∈ Finset.Icc (r + 1) d,
      (DiceReroll d r).pdf x
        = 1 / (d : ℚ) + (r : ℚ) / (d : ℚ) * (1 / (d : ℚ)) := by
    intro x hx
    rw [Finset.mem_Icc] at hx
    rw [pdf_in_bounds (show (1 : Int) ≤ x by omega : (1 : Int) ≤ x)
      (show x ≤ (DiceReroll d r).upper_bound from hx.2)]
    show (if x > r then _ else _) = _
    rw [if_pos (by omega)]
  rw [Finset.sum_congr rfl hlow, Finset.sum_congr rfl hhigh,
    Finset.sum_const, Finset.sum_const, Int.card_Icc, Int.card_Icc,
    nsmul_eq_mul, nsmul_eq_mul]
  have hc1 : (((r : Int) + 1 - 1).toNat : ℚ) = (r : ℚ) := by
    rw [show (r : Int) + 1 - 1 = r by ring]
    rw [← Int.cast_natCast, Int.toNat_of_nonneg (by omega)]
  have hc2 : ((d + 1 - (r + 1)).toNat : ℚ) = (d : ℚ) - (r : ℚ) := by
    rw [show d + 1 - (r + 1) = d - r by ring]
    rw [← Int.cast_natCast, Int.toNat_of_nonneg (by omega), Int.cast_sub]
  rw [hc1, hc2]
  have hd0 : (d : ℚ) ≠ 0 := Int.cast_ne_zero.mpr (by omega)
  field_simp
  ring

theorem sumPdf_Constant (v : Int) : sumPdf (Constant v) = 1 := by
  show (Finset.Icc v v).sum (Constant v).pdf = 1
  rw [Finset.Icc_self, Finset.sum_singleton,
    pdf_in_bounds (le_refl v) (le_refl v)]
  rfl

theorem sumPdf_Uniform (lb ub : Int) (h : lb ≤ ub) : sumPdf (Uniform lb ub) = 1 := by
  show (Finset.Icc lb ub).sum (Uniform lb ub).pdf = 1
  have hc : ∀ x ∈ Finset.Icc lb ub,
      (Uniform lb ub).pdf x = 1 / ((ub : ℚ) - (lb : ℚ) + 1) := by
    intro x hx
    rw [Finset.mem_Icc] at hx
    exact pdf_in_bounds hx.1 hx.2
  rw [Finset.sum_congr rfl hc, Finset.sum_const, Int.card_Icc, nsmul_eq_mul]
  have hcast : ((ub + 1 - lb).toNat : ℚ) = (ub : ℚ) - (lb : ℚ) + 1 := by
    rw [← Int.cast_natCast, Int.toNat_of_nonneg (by omega)]
    push_cast
    ring
  rw [hcast]
  have h0 : (ub : ℚ) - (lb : ℚ) + 1 ≠ 0 := by
    have h1 : ((ub - lb + 1 : Int) : ℚ) ≠ 0 := Int.cast_ne_zero.mpr (by omega)
    push_cast at h1
    exact h1
  field_simp

theorem sum_sq_diff (X : RandomVariable) (h : sumPdf X = 1) :
    (Finset.Icc X.lower_bound X.upper_bound).sum
      (fun x => 2 * X.pdf x * X.cdf (x - 1) + X.pdf x ^ 2) = 1 := by
  have hle := le_of_sumPdf_one h
  have hcong : ∀ x ∈ Finset.Icc X.lower_bound X.upper_bound,
      2 * X.pdf x * X.cdf (x - 1) + X.pdf x ^ 2
        = X.cdf x ^ 2 - X.cdf (x - 1) ^ 2 := by
    intro x _
    rw [cdf_recurrence X x]
    ring
  rw [Finset.sum_congr rfl hcong,
    sum_telescope_Icc (fun w => X.cdf w ^ 2) X.lower_bound X.upper_bound (by omega),
    cdf_at_ub, h, cdf_before_lb X (by omega)]
  norm_num

theorem sum_cube_diff (X : RandomVariable) (h : sumPdf X = 1) :
    (Finset.Icc X.lower_bound X.upper_bound).sum
      (fun x => 3 * X.pdf x * X.cdf (x - 1) ^ 2 + 3 * X.pdf x ^ 2 * X.cdf (x - 1)
        + X.pdf x ^ 3) = 1 := by
  have hle := le_of_sumPdf_one h
  have hcong : ∀ x ∈ Finset.Icc X.lower_bound X.upper_bound,
      3 * X.pdf x * X.cdf (x - 1) ^ 2 + 3 * X.pdf x ^ 2 * X.cdf (x - 1) + X.pdf x ^ 3
        = X.cdf x ^ 3 - X.cdf (x - 1) ^ 3 := by
    intro x _
    rw [cdf_recurrence X x]
    ring
  rw [Finset.sum_congr rfl hcong,
    sum_telescope_Icc (fun w => X.cdf w ^ 3) X.lower_bound X.upper_bound (by omega),
    cdf_at_ub, h, cdf_before_lb X (by omega)]
  norm_num

theorem sumPdf_max_two (X : RandomVariable) (h : sumPdf X = 1) :
    sumPdf X.max_two_trials = 1 := by
  show (Finset.Icc X.lower_bound X.upper_bound).sum X.max_two_trials.pdf = 1
  have hcong : ∀ x ∈ Finset.Icc X.lower_bound X.upper_bound,
      X.max_two_trials.pdf x = 2 * X.pdf x * X.cdf (x - 1) + X.pdf x ^ 2 := by
    intro x hx
    rw [Finset.mem_Icc] at hx
    exact pdf_in_bounds hx.1 hx.2
  rw [Finset.sum_congr rfl hcong]
  exact sum_sq_diff X h

theorem sumPdf_min_two (X : RandomVariable) (h : sumPdf X = 1) :
    sumPdf X.min_two_trials = 1 := by
  show (Finset.Icc X.lower_bound X.upper_bound).sum X.min_two_trials.pdf = 1
  have hcong : ∀ x ∈ Finset.Icc X.lower_bound X.upper_bound,
      X.min_two_trials.pdf x
        = 2 * X.pdf x - (2 * X.pdf x * X.cdf (x - 1) + X.pdf x ^ 2) := by
    intro x hx
    rw [Finset.mem_Icc] at hx
    exact pdf_in_bounds hx.1 hx.2
  rw [Finset.sum_congr rfl hcong, Finset.sum_sub_distrib, sum_sq_diff X h]
  have h2 : (Finset.Icc X.lower_bound X.upper_bound).sum (fun x => 2 * X.pdf x)
      = 2 * sumPdf X := by
    rw [← Finset.mul_sum]
    rfl
  rw [h2, h]
  norm_num

theorem sumPdf_max_three (X : RandomVariable) (h : sumPdf X = 1) :
    sumPdf X.max_three_trials = 1 := by
  show (Finset.Icc X.lower_bound X.upper_bound).sum X.max_three_trials.pdf = 1
  have hcong : ∀ x ∈ Finset.Icc X.lower_bound X.upper_bound,
      X.max_three_trials.pdf x
        = 3 * X.pdf x * X.cdf (x - 1) ^ 2 + 3 * X.pdf x ^ 2 * X.cdf (x - 1)
          + X.pdf x ^ 3 := by
    intro x hx
    rw [Finset.mem_Icc] at hx
    exact pdf_in_bounds hx.1 hx.2
  rw [Finset.sum_congr rfl hcong]
  exact sum_cube_diff X h

theorem sumPdf_half_round_down (X : RandomVariable) (h : sumPdf X = 1) :
    sumPdf X.half_round_down = 1 := by
  have hle := le_of_sumPdf_one h
  have hf1 := fdiv2_facts X.lower_bound
  have hf2 := fdiv2_facts X.upper_bound
  show (Finset.Icc (Int.fdiv X.lower_bound 2) (Int.fdiv X.upper_bound 2)).sum
    X.half_round_down.pdf = 1
  have hcong : ∀ x ∈ Finset.Icc (Int.fdiv X.lower_bound 2) (Int.fdiv X.upper_bound 2),
      X.half_round_down.pdf x = X.pdf (2 * x) + X.pdf (2 * x + 1) := by
    intro x hx
    rw [Finset.mem_Icc] at hx
    exact pdf_in_bounds hx.1 hx.2
  rw [Finset.sum_congr rfl hcong,
    sum_pair_halves X.pdf (Int.fdiv X.lower_bound 2) (Int.fdiv X.upper_bound 2) (by omega),
    sum_pdf_extend X (by omega) (by omega)]
  exact h

theorem sumPdf_memoize (X : RandomVariable) : sumPdf X.memoize = sumPdf X := by
  show (Finset.Icc X.lower_bound X.upper_bound).sum X.memoize.pdf = sumPdf X
  rw [Finset.sum_congr rfl (fun x _ => pdf_memoize X x)]
  rfl

theorem sumPdf_add_rv_one (X Y : RandomVariable) (hX : sumPdf X = 1) (hY : sumPdf Y = 1) :
    sumPdf (X.add_rv Y) = 1 := by
  rw [sumPdf_add_rv, hX, hY, mul_one]

/-- C4: the core constructors Dice, DiceReroll, Constant and Uniform all
produce a pdf summing to exactly 1 over their declared bounds, and
add_rv, max_two_trials, min_two_trials, max_three_trials,
half_round_down and memoize all preserve this normalization when fed
operands summing to 1 (rational equality throughout). -/
theorem C4_mass_one :
    (∀ d : Int, 1 ≤ d → sumPdf (Dice d) = 1) ∧
    (∀ d r : Int, 1 ≤ d → 0 ≤ r → r ≤ d → sumPdf (DiceReroll d r) = 1) ∧
    (∀ v : Int, sumPdf (Constant v) = 1) ∧
    (∀ lb ub : Int, lb ≤ ub → sumPdf (Uniform lb ub) = 1) ∧
    (∀ X Y : RandomVariable, sumPdf X = 1 → sumPdf Y = 1 → sumPdf (X.add_rv Y) = 1) ∧
    (∀ X : RandomVariable, sumPdf X = 1 → sumPdf X.max_two_trials = 1) ∧
    (∀ X : RandomVariable, sumPdf X = 1 → sumPdf X.min_two_trials = 1) ∧
    (∀ X : RandomVariable, sumPdf X = 1 → sumPdf X.max_three_trials = 1) ∧
    (∀ X : RandomVariable, sumPdf X = 1 → sumPdf X.half_round_down = 1) ∧
    (∀ X : RandomVariable, sumPdf X = 1 → sumPdf X.memoize = 1) :=
  ⟨sumPdf_Dice, sumPdf_DiceReroll, sumPdf_Constant, sumPdf_Uniform,
   sumPdf_add_rv_one, sumPdf_max_two, sumPdf_min_two, sumPdf_max_three,
   sumPdf_half_round_down, fun X h => by rw [sumPdf_memoize]; exact h⟩

theorem C4_witness :
    (1 : Int) ≤ 6 ∧ sumPdf (Dice 6) = 1 ∧ sumPdf (DiceReroll 20 1) = 1 ∧
    sumPdf (Constant 5) = 1 ∧ sumPdf (Uniform 10 13) = 1 ∧
    sumPdf ((Dice 4).add_rv (Constant 3)) = 1 ∧
    sumPdf (Dice 4).max_two_trials = 1 ∧ sumPdf (Dice 4).min_two_trials = 1 ∧
    sumPdf (Dice 4).max_three_trials = 1 ∧
    sumPdf (Dice 4).half_round_down = 1 ∧ sumPdf (Dice 4).memoize = 1 :=
  ⟨by decide,
   C4_mass_one.1 6 (by decide),
   C4_mass_one.2.1 20 1 (by decide) (by decide) (by decide),
   C4_mass_one.2.2.1 5,
   C4_mass_one.2.2.2.1 10 13 (by decide),
   C4_mass_one.2.2.2.2.1 (Dice 4) (Constant 3) (sumPdf_Dice 4 (by decide))
     (sumPdf_Constant 3),
   C4_mass_one.2.2.2.2.2.1 (Dice 4) (sumPdf_Dice 4 (by decide)),
   C4_mass_one.2.2.2.2.2.2.1 (Dice 4) (sumPdf_Dice 4 (by decide)),
   C4_mass_one.2.2.2.2.2.2.2.1 (Dice 4) (sumPdf_Dice 4 (by decide)),
   C4_mass_one.2.2.2.2.2.2.2.2.1 (Dice 4) (sumPdf_Dice 4 (by decide)),
   C4_mass_one.2.2.2.2.2.2.2.2.2 (Dice 4) (sumPdf_Dice 4 (by decide))⟩

theorem summation_step (lb ub : Int) (f : Int → ℚ) (h : lb ≤ ub) :
    summation lb ub f = f lb + summation (lb + 1) ub f := by
  unfold summation
  have hins : Finset.Icc lb ub = insert lb (Finset.Icc (lb + 1) ub) := by
    ext z
    simp only [Finset.mem_Icc, Finset.mem_insert]
    omega
  rw [hins, Finset.sum_insert (by simp)]

theorem summation_empty (lb ub : Int) (f : Int → ℚ) (h : ub < lb) :
    summation lb ub f = 0 := by
  unfold summation
  rw [Finset.Icc_eq_empty (by omega), Finset.sum_empty]

/-- The {MISS, HIT, CRIT} outcome tag of HitEnums.py. -/
inductive HitOutcome where
  | MISS
  | HIT
  | CRIT
deriving DecidableEq, Repr

/-- The HitType tag of HitEnums.py. -/
inductive HitType where
  | DISADVANTAGE
  | NORMAL
  | ADVANTAGE
  | SUPER_ADVANTAGE
deriving DecidableEq, Repr

/-- The d20 used by Attack.__init__: a DiceReroll for the halfling lucky
feature, a plain d20 otherwise. -/
def firstD20 (halfling_lucky : Bool) : RandomVariable :=
  if halfling_lucky then DiceReroll 20 1 else Dice 20

/-- The order-statistic transform selected by the hit type in
Attack.__init__. -/
def overallD20 (hit_type : HitType) (halfling_lucky : Bool) : RandomVariable :=
  match hit_type with
  | HitType.NORMAL => firstD20 halfling_lucky
  | HitType.DISADVANTAGE => (firstD20 halfling_lucky).min_two_trials
  | HitType.ADVANTAGE => (firstD20 halfling_lucky).max_two_trials
  | HitType.SUPER_ADVANTAGE => (firstD20 halfling_lucky).max_three_trials

/-- The three outcome chances computed by Attack.__init__. -/
structure AttackChances where
  miss : ℚ
  hit : ℚ
  crit : ℚ

/-- Mirrors the chance computation of Attack.__init__ in Attack.py for an
integer target: crit chance from the top of the d20 distribution, auto
miss from a natural 1, the hit-vs-miss subrange [2, crit_lb - 1] with the
same pdf method as the overall d20, convolved with the bonus
distribution, and the final outcome dictionary (with the auto_crit
folding of HIT into CRIT). -/
def attackInit (bonus_rv : RandomVariable) (armor_class : Int) (hit_type : HitType)
    (crit_lb : Int) (halfling_lucky auto_crit : Bool) : AttackChances :=
  let overall := overallD20 hit_type halfling_lucky
  let crit_chance := 1 - overall.cdf (crit_lb - 1)
  let auto_miss_chance := overall.pdf 1
  let hit_miss_d20 : RandomVariable :=
    { lower_bound := 2, upper_bound := crit_lb - 1, pdf_ := overall.pdf }
  let hit_miss_rv := hit_miss_d20.add_rv bonus_rv
  let reg_miss_chance := hit_miss_rv.cdf (armor_class - 1)
  let hit_chance := hit_miss_rv.cdf hit_miss_rv.upper_bound
    - hit_miss_rv.cdf (armor_class - 1)
  if auto_crit then
    { miss := auto_miss_chance + reg_miss_chance, hit := 0,
      crit := hit_chance + crit_chance }
  else
    { miss := auto_miss_chance + reg_miss_chance, hit := hit_chance,
      crit := crit_chance }

theorem overallD20_lb (hit_type : HitType) (halfling_lucky : Bool) :
    (overallD20 hit_type halfling_lucky).lower_bound = 1 := by
  cases hit_type <;> cases halfling_lucky <;> rfl

/-- C3: for an integer target, any hit type, any crit threshold in
[2, 20], and any flag setting, the three outcome chances computed by
Attack.__init__ sum to exactly 1, provided the to-hit bonus distribution
has total mass 1. -/
theorem C3_attack_chances_sum_one (bonus_rv : RandomVariable) (armor_class : Int)
    (hit_type : HitType) (crit_lb : Int) (halfling_lucky auto_crit : Bool)
    (hcl1 : 2 ≤ crit_lb) (hcl2 : crit_lb ≤ 20) (hb : sumPdf bonus_rv = 1) :
    (attackInit bonus_rv armor_class hit_type crit_lb halfling_lucky auto_crit).miss
      + (attackInit bonus_rv armor_class hit_type crit_lb halfling_lucky auto_crit).hit
      + (attackInit bonus_rv armor_class hit_type crit_lb halfling_lucky auto_crit).crit
      = 1 := by
  have hlb := overallD20_lb hit_type halfling_lucky
  set overall := overallD20 hit_type halfling_lucky with hov
  have hmd : sumPdf (RandomVariable.mk 2 (crit_lb - 1) overall.pdf)
      = overall.cdf (crit_lb - 1) - overall.pdf 1 := by
    show (Finset.Icc (2 : Int) (crit_lb - 1)).sum
      (RandomVariable.mk 2 (crit_lb - 1) overall.pdf).pdf = _
    have hcong : ∀ x ∈ Finset.Icc (2 : Int) (crit_lb - 1),
        (RandomVariable.mk 2 (crit_lb - 1) overall.pdf).pdf x = overall.pdf x := by
      intro x hx
      rw [Finset.mem_Icc] at hx
      rw [pdf_in_bounds hx.1 hx.2]
    have hcdf : overall.cdf (crit_lb - 1)
        = (Finset.Icc (1 : Int) (crit_lb - 1)).sum overall.pdf := by
      unfold RandomVariable.cdf summation
      rw [hlb]
    have hins : Finset.Icc (1 : Int) (crit_lb - 1)
        = insert 1 (Finset.Icc 2 (crit_lb - 1)) := by
      ext z
      simp only [Finset.mem_Icc, Finset.mem_insert]
      omega
    rw [Finset.sum_congr rfl hcong, hcdf, hins, Finset.sum_insert (by simp)]
    ring
  have hmass : sumPdf ((RandomVariable.mk 2 (crit_lb - 1) overall.pdf).add_rv bonus_rv)
      = overall.cdf (crit_lb - 1) - overall.pdf 1 := by
    rw [sumPdf_add_rv, hmd, hb, mul_one]
  cases auto_crit <;>
    simp only [attackInit, Bool.false_eq_true, if_false, if_true, ← hov] <;>
    rw [cdf_at_ub, hmass] <;>
    ring

theorem C3_witness :
    (2 : Int) ≤ 20 ∧ (20 : Int) ≤ 20 ∧ sumPdf (Constant 5) = 1 ∧
    ((attackInit (Constant 5) 14 HitType.NORMAL 20 false false).miss
      + (attackInit (Constant 5) 14 HitType.NORMAL 20 false false).hit
      + (attackInit (Constant 5) 14 HitType.NORMAL 20 false false).crit = 1) :=
  ⟨by decide, by decide, sumPdf_Constant 5,
   C3_attack_chances_sum_one (Constant 5) 14 HitType.NORMAL 20 false false
     (by decide) (by decide) (sumPdf_Constant 5)⟩

theorem weighted_sum_eval (T : RandomVariable) (hT : sumPdf T = 1) (c : ℚ) (g : Int → ℚ) :
    summation T.lower_bound T.upper_bound (fun t => T.pdf t * (c + g t))
      = c + summation T.lower_bound T.upper_bound (fun t => T.pdf t * g t) := by
  unfold summation
  have hcong : ∀ t ∈ Finset.Icc T.lower_bound T.upper_bound,
      T.pdf t * (c + g t) = c * T.pdf t + T.pdf t * g t := fun t _ => by ring
  rw [Finset.sum_congr rfl hcong, Finset.sum_add_distrib, ← Finset.mul_sum,
    show (Finset.Icc T.lower_bound T.upper_bound).sum T.pdf = 1 from hT, mul_one]

theorem weighted_sum_eval_right (T : RandomVariable) (hT : sumPdf T = 1) (c : ℚ)
    (g : Int → ℚ) :
    summation T.lower_bound T.upper_bound (fun t => T.pdf t * (g t + c))
      = summation T.lower_bound T.upper_bound (fun t => T.pdf t * g t) + c := by
  unfold summation
  have hcong : ∀ t ∈ Finset.Icc T.lower_bound T.upper_bound,
      T.pdf t * (g t + c) = T.pdf t * g t + c * T.pdf t := fun t _ => by ring
  rw [Finset.sum_congr rfl hcong, Finset.sum_add_distrib, ← Finset.mul_sum,
    show (Finset.Icc T.lower_bound T.upper_bound).sum T.pdf = 1 from hT, mul_one]

theorem weighted_const_eval (T : RandomVariable) (hT : sumPdf T = 1) (c : ℚ) :
    summation T.lower_bound T.upper_bound (fun t => T.pdf t * c) = c := by
  unfold summation
  rw [← Finset.sum_mul,
    show (Finset.Icc T.lower_bound T.upper_bound).sum T.pdf = 1 from hT, one_mul]

/-- Modelled from the spec: the Attack variant that accepts an Enemy
whose armor class is itself a RandomVariable is not under src (the
Attack in src/Attack.py subtracts 1 from an integer target; the test
scripts construct Attack objects from Enemy values and rely on the newer
Attack).  Per spec section 4.2, the target-as-distribution case is
computed by summing the bonus-vs-threshold relation weighted by the
threshold pdf: the regular-miss and hit chances become the pdf-weighted
sums of the corresponding cdf expressions, while the crit and auto-miss
chances do not involve the target. -/
def attackInitDistTarget (bonus_rv T : RandomVariable) (hit_type : HitType)
    (crit_lb : Int) (halfling_lucky auto_crit : Bool) : AttackChances :=
  let overall := overallD20 hit_type halfling_lucky
  let crit_chance := 1 - overall.cdf (crit_lb - 1)
  let auto_miss_chance := overall.pdf 1
  let hit_miss_d20 : RandomVariable :=
    { lower_bound := 2, upper_bound := crit_lb - 1, pdf_ := overall.pdf }
  let hit_miss_rv := hit_miss_d20.add_rv bonus_rv
  let reg_miss_chance := summation T.lower_bound T.upper_bound
    (fun t => T.pdf t * hit_miss_rv.cdf (t - 1))
  let hit_chance := summation T.lower_bound T.upper_bound
    (fun t => T.pdf t * (hit_miss_rv.cdf hit_miss_rv.upper_bound
      - hit_miss_rv.cdf (t - 1)))
  if auto_crit then
    { miss := auto_miss_chance + reg_miss_chance, hit := 0,
      crit := hit_chance + crit_chance }
  else
    { miss := auto_miss_chance + reg_miss_chance, hit := hit_chance,
      crit := crit_chance }

/-- C5: with a distribution-valued target whose pdf sums to 1, every
outcome chance of the distribution-target attack equals the average,
weighted by the target pdf, of the chances the integer-target
Attack.__init__ computation yields at each constant threshold. -/
theorem C5_dist_target_is_weighted_average (bonus_rv T : RandomVariable)
    (hit_type : HitType) (crit_lb : Int) (halfling_lucky auto_crit : Bool)
    (hT : sumPdf T = 1) :
    ((attackInitDistTarget bonus_rv T hit_type crit_lb halfling_lucky auto_crit).miss
      = summation T.lower_bound T.upper_bound (fun t => T.pdf t
        * (attackInit bonus_rv t hit_type crit_lb halfling_lucky auto_crit).miss)) ∧
    ((attackInitDistTarget bonus_rv T hit_type crit_lb halfling_lucky auto_crit).hit
      = summation T.lower_bound T.upper_bound (fun t => T.pdf t
        * (attackInit bonus_rv t hit_type crit_lb halfling_lucky auto_crit).hit)) ∧
    ((attackInitDistTarget bonus_rv T hit_type crit_lb halfling_lucky auto_crit).crit
      = summation T.lower_bound T.upper_bound (fun t => T.pdf t
        * (attackInit bonus_rv t hit_type crit_lb halfling_lucky auto_crit).crit)) := by
  cases auto_crit
  · refine ⟨?_, ?_, ?_⟩
    · simp only [attackInitDistTarget, attackInit, Bool.false_eq_true, if_false]
      rw [weighted_sum_eval T hT ((overallD20 hit_type halfling_lucky).pdf 1)
        (fun t => (RandomVariable.add_rv
          (RandomVariable.mk 2 (crit_lb - 1) (overallD20 hit_type halfling_lucky).pdf)
          bonus_rv).cdf (t - 1))]
    · simp only [attackInitDistTarget, attackInit, Bool.false_eq_true, if_false]
    · simp only [attackInitDistTarget, attackInit, Bool.false_eq_true, if_false]
      rw [weighted_const_eval T hT
        (1 - (overallD20 hit_type halfling_lucky).cdf (crit_lb - 1))]
  · refine ⟨?_, ?_, ?_⟩
    · simp only [attackInitDistTarget, attackInit, if_true]
      rw [weighted_sum_eval T hT ((overallD20 hit_type halfling_lucky).pdf 1)
        (fun t => (RandomVariable.add_rv
          (RandomVariable.mk 2 (crit_lb - 1) (overallD20 hit_type halfling_lucky).pdf)
          bonus_rv).cdf (t - 1))]
    · simp only [attackInitDistTarget, attackInit, if_true, mul_zero]
      unfold summation
      rw [Finset.sum_const, smul_zero]
    · simp only [attackInitDistTarget, attackInit, if_true]
      rw [weighted_sum_eval_right T hT
        (1 - (overallD20 hit_type halfling_lucky).cdf (crit_lb - 1))
        (fun t => (RandomVariable.add_rv
          (RandomVariable.mk 2 (crit_lb - 1) (overallD20 hit_type halfling_lucky).pdf)
          bonus_rv).cdf ((RandomVariable.add_rv
            (RandomVariable.mk 2 (crit_lb - 1)
              (overallD20 hit_type halfling_lucky).pdf) bonus_rv).upper_bound)
          - (RandomVariable.add_rv
            (RandomVariable.mk 2 (crit_lb - 1)
              (overallD20 hit_type halfling_lucky).pdf) bonus_rv).cdf (t - 1))]

theorem C5_witness :
    sumPdf (Uniform 10 13) = 1 ∧
    (attackInitDistTarget (Constant 5) (Uniform 10 13) HitType.ADVANTAGE 20
        false false).miss
      = summation (Uniform 10 13).lower_bound (Uniform 10 13).upper_bound
          (fun t => (Uniform 10 13).pdf t
            * (attackInit (Constant 5) t HitType.ADVANTAGE 20 false false).miss) :=
  ⟨sumPdf_Uniform 10 13 (by decide),
   (C5_dist_target_is_weighted_average (Constant 5) (Uniform 10 13)
     HitType.ADVANTAGE 20 false false (sumPdf_Uniform 10 13 (by decide))).1⟩

/-- The accumulator state of DamageSum.py: unresisted and resisted
base/crit distributions, each possibly still unset. -/
structure DamageSum where
  damage_rv : Option RandomVariable
  crit_damage_rv : Option RandomVariable
  resisted_dmg_rv : Option RandomVariable
  resisted_crit_dmg_rv : Option RandomVariable

/-- Mirrors DamageSum.has_damage. -/
def DamageSum.has_damage (ds : DamageSum) : Bool :=
  ds.damage_rv.isSome || ds.resisted_dmg_rv.isSome

/-- Mirrors DamageSum.get_outcome_rv; none models the RuntimeError raised
when no damage is set.  In the CRIT branch the source returns
self.crit_damage_rv directly, which may itself be None when only
resisted damage was ever added without a crit part; add_damage always
sets base and crit accumulators together, so concrete states built here
keep them paired. -/
def DamageSum.get_outcome_rv (ds : DamageSum) (outcome : HitOutcome) :
    Option RandomVariable :=
  if ds.has_damage then
    match outcome with
    | HitOutcome.MISS => some (Constant 0)
    | HitOutcome.HIT =>
      match ds.resisted_dmg_rv with
      | none => ds.damage_rv
      | some r =>
        match ds.damage_rv with
        | none => some r.half_round_down
        | some d => some (d.add_rv r.half_round_down)
    | HitOutcome.CRIT =>
      match ds.resisted_crit_dmg_rv with
      | none => ds.crit_damage_rv
      | some r =>
        match ds.crit_damage_rv with
        | none => some r.half_round_down
        | some c => some (c.add_rv r.half_round_down)
  else none

/-- Where the mass of each support point lands under half_round_down:
the mass at y collects every v with floor division v by 2 equal to y. -/
def halfFloorAttribution (X : RandomVariable) (y : Int) : ℚ :=
  ((Finset.Icc X.lower_bound X.upper_bound).filter
    (fun v => Int.fdiv v 2 = y)).sum X.pdf

/-- The halving asserted by the claim, attributing the mass of every
support point v to v divided by 2 rounding toward zero (T-division). -/
def claimHalfTowardZero (X : RandomVariable) (y : Int) : ℚ :=
  ((Finset.Icc X.lower_bound X.upper_bound).filter
    (fun v => Int.tdiv v 2 = y)).sum X.pdf

theorem half_pdf_eq (X : RandomVariable) (y : Int) :
    X.half_round_down.pdf y = X.pdf (2 * y) + X.pdf (2 * y + 1) := by
  have hfl := fdiv2_facts X.lower_bound
  have hfu := fdiv2_facts X.upper_bound
  by_cases h1 : y < Int.fdiv X.lower_bound 2
  · rw [pdf_eq_zero_of_lt (show y < X.half_round_down.lower_bound from h1),
      pdf_eq_zero_of_lt (show 2 * y < X.lower_bound by omega),
      pdf_eq_zero_of_lt (show 2 * y + 1 < X.lower_bound by omega), add_zero]
  · by_cases h2 : Int.fdiv X.upper_bound 2 < y
    · rw [pdf_eq_zero_of_gt (show X.half_round_down.upper_bound < y from h2),
        pdf_eq_zero_of_gt (show X.upper_bound < 2 * y by omega),
        pdf_eq_zero_of_gt (show X.upper_bound < 2 * y + 1 by omega), add_zero]
    · exact pdf_in_bounds (show X.half_round_down.lower_bound ≤ y from not_lt.mp h1)
        (show y ≤ X.half_round_down.upper_bound from not_lt.mp h2)

theorem half_floor_attribution (X : RandomVariable) (y : Int) :
    X.half_round_down.pdf y = halfFloorAttribution X y := by
  rw [half_pdf_eq]
  unfold halfFloorAttribution
  have hpair : ∀ v : Int, Int.fdiv v 2 = y ↔ (v = 2 * y ∨ v = 2 * y + 1) := by
    intro v
    have hv := fdiv2_facts v
    constructor
    · intro h
      omega
    · intro h
      have h2y := fdiv2_facts (2 * y)
      have h2y1 := fdiv2_facts (2 * y + 1)
      rcases h with h | h <;> omega
  have hsub : (Finset.Icc X.lower_bound X.upper_bound).filter
      (fun v => Int.fdiv v 2 = y) ⊆ ({2 * y, 2 * y + 1} : Finset Int) := by
    intro v hv
    rw [Finset.mem_filter] at hv
    rw [Finset.mem_insert, Finset.mem_singleton]
    exact (hpair v).mp hv.2
  have hext : ((Finset.Icc X.lower_bound X.upper_bound).filter
        (fun v => Int.fdiv v 2 = y)).sum X.pdf
      = (({2 * y, 2 * y + 1} : Finset Int)).sum X.pdf := by
    refine Finset.sum_subset hsub ?_
    intro v hv hnv
    rw [Finset.mem_insert, Finset.mem_singleton] at hv
    rw [Finset.mem_filter, Finset.mem_Icc] at hnv
    push_neg at hnv
    by_cases hin : X.lower_bound ≤ v ∧ v ≤ X.upper_bound
    · exact absurd ((hpair v).mpr hv) (hnv hin)
    · rcases not_and_or.mp hin with h | h
      · exact pdf_eq_zero_of_lt (not_le.mp h)
      · exact pdf_eq_zero_of_gt (not_le.mp h)
  rw [hext, Finset.sum_pair (by omega)]

/-- C7 counterexample random variable: a resisted 1d4 - 3 total, whose
support contains negative values. -/
def negResist : RandomVariable := (Dice 4).add_rv (Constant (-3))

/-- C7 counterexample: on the support point -1 the code attributes mass
by floor division (to -1), not by rounding toward zero (to 0): the
halved distribution of a resisted 1d4 - 3 total puts mass 1/2 at -1
while the toward-zero attribution of the claim puts only 1/4 there
(and the two disagree). -/
theorem C7_counterexample :
    negResist.pdf (-1) = 1 / 4 ∧
    negResist.half_round_down.pdf (-1) = 1 / 2 ∧
    claimHalfTowardZero negResist (-1) = 1 / 4 ∧
    negResist.half_round_down.pdf (-1) ≠ claimHalfTowardZero negResist (-1) := by
  have h1 : negResist.pdf (-1) = 1 / 4 := by
    simp [negResist, RandomVariable.add_rv, RandomVariable.pdf, convolution, Dice,
      Constant, summation_step, summation_empty]
  have h2 : negResist.half_round_down.pdf (-1) = 1 / 2 := by
    rw [half_pdf_eq]
    simp [negResist, RandomVariable.add_rv, RandomVariable.pdf, convolution, Dice,
      Constant, summation_step, summation_empty]
    norm_num
  have h3 : claimHalfTowardZero negResist (-1) = 1 / 4 := by
    unfold claimHalfTowardZero
    rw [show (Finset.Icc negResist.lower_bound negResist.upper_bound).filter
        (fun v => Int.tdiv v 2 = -1) = ({-2} : Finset Int) from by decide,
      Finset.sum_singleton]
    simp [negResist, RandomVariable.add_rv, RandomVariable.pdf, convolution, Dice,
      Constant, summation_step, summation_empty]
  exact ⟨h1, h2, h3, by rw [h2, h3]; norm_num⟩

/-- C7 (amended): half_round_down attributes the probability mass of
every support point v to the floor of v divided by 2 (the pair 2y and
2y + 1 collapse onto y), which agrees with rounding toward zero for
non-negative v; merging a resisted constant 7 with no unresisted part
gives the HIT outcome exactly the halved distribution, which is the
constant 3 (pdf 1 at 3). -/
theorem C7_resisted_halving_floor :
    (∀ (X : RandomVariable) (y : Int),
      X.half_round_down.pdf y = halfFloorAttribution X y) ∧
    (∀ v : Int, 0 ≤ v → Int.fdiv v 2 = Int.tdiv v 2) ∧
    (DamageSum.get_outcome_rv
        (DamageSum.mk none none (some (Constant 7)) (some (Constant 14)))
        HitOutcome.HIT
      = some (Constant 7).half_round_down) ∧
    (Constant 7).half_round_down.pdf 3 = 1 := by
  refine ⟨half_floor_attribution, fun v hv => Int.fdiv_eq_tdiv hv (by decide), rfl, ?_⟩
  rw [half_pdf_eq]
  simp [Constant, RandomVariable.pdf]

theorem C7_witness :
    (Dice 6).half_round_down.pdf 2 = halfFloorAttribution (Dice 6) 2 ∧
    Int.fdiv 7 2 = Int.tdiv 7 2 :=
  ⟨C7_resisted_halving_floor.1 (Dice 6) 2,
   C7_resisted_halving_floor.2.1 7 (by decide)⟩

/-- The three outcome keys in dict insertion order (Attack.__init__ and
DamageSum fill MISS, HIT, CRIT in this order, and get_outcomes returns
list(keys())). -/
def allOutcomes : List HitOutcome :=
  [HitOutcome.MISS, HitOutcome.HIT, HitOutcome.CRIT]

/-- The OutcomeRV container of OutcomeRV.py after both dictionaries have
been set with all three outcome keys, as finish_setup leaves every
finalized Attack. -/
structure OutcomeRV where
  outcome_chance_dict : HitOutcome → ℚ
  outcome_rv_dict : HitOutcome → RandomVariable
  cap_lb : Option Int
  cap_ub : Option Int

/-- Mirrors OutcomeRV.get_outcome_chance. -/
def OutcomeRV.get_outcome_chance (s : OutcomeRV) (o : HitOutcome) : ℚ :=
  s.outcome_chance_dict o

/-- Mirrors OutcomeRV.get_outcome_rv. -/
def OutcomeRV.get_outcome_rv (s : OutcomeRV) (o : HitOutcome) : RandomVariable :=
  s.outcome_rv_dict o

/-- Mirrors OutcomeRV.outcome_pdf_: the chance-weighted sum of f over
the three outcome keys in insertion order. -/
def OutcomeRV.outcome_pdf_ (s : OutcomeRV) (f : HitOutcome → Int → ℚ) (x : Int) : ℚ :=
  s.outcome_chance_dict HitOutcome.MISS * f HitOutcome.MISS x
    + s.outcome_chance_dict HitOutcome.HIT * f HitOutcome.HIT x
    + s.outcome_chance_dict HitOutcome.CRIT * f HitOutcome.CRIT x

/-- Mirrors OutcomeRV.pdf including both cap checks: below cap_lb the
value is 0, at cap_lb the weight function becomes the cdf (folding the
truncated lower mass in), above cap_ub the value is 0, at cap_ub the
weight function becomes 1 - cdf; when both caps are set and coincide the
cap_ub replacement wins, as the source assigns f twice in sequence. -/
def OutcomeRV.pdf (s : OutcomeRV) (x : Int) : ℚ :=
  match s.cap_lb, s.cap_ub with
  | none, none => s.outcome_pdf_ (fun o y => (s.outcome_rv_dict o).pdf y) x
  | some l, none =>
    if x < l then 0
    else if x = l then s.outcome_pdf_ (fun o y => (s.outcome_rv_dict o).cdf y) x
    else s.outcome_pdf_ (fun o y => (s.outcome_rv_dict o).pdf y) x
  | none, some u =>
    if x > u then 0
    else if x = u then s.outcome_pdf_ (fun o y => 1 - (s.outcome_rv_dict o).cdf y) x
    else s.outcome_pdf_ (fun o y => (s.outcome_rv_dict o).pdf y) x
  | some l, some u =>
    if x < l then 0
    else if x > u then 0
    else if x = u then s.outcome_pdf_ (fun o y => 1 - (s.outcome_rv_dict o).cdf y) x
    else if x = l then s.outcome_pdf_ (fun o y => (s.outcome_rv_dict o).cdf y) x
    else s.outcome_pdf_ (fun o y => (s.outcome_rv_dict o).pdf y) x

/-- Mirrors OutcomeRV.get_bounds: min and max of the per-outcome bounds
over the dict in insertion order, overridden by the caps when set. -/
def OutcomeRV.get_bounds (s : OutcomeRV) : Int × Int :=
  let lb := min (min (s.outcome_rv_dict HitOutcome.MISS).lower_bound
    (s.outcome_rv_dict HitOutcome.HIT).lower_bound)
    (s.outcome_rv_dict HitOutcome.CRIT).lower_bound
  let ub := max (max (s.outcome_rv_dict HitOutcome.MISS).upper_bound
    (s.outcome_rv_dict HitOutcome.HIT).upper_bound)
    (s.outcome_rv_dict HitOutcome.CRIT).upper_bound
  (match s.cap_lb with | some l => l | none => lb,
   match s.cap_ub with | some u => u | none => ub)

/-- Mirrors OutcomeRV.get_rv: a RandomVariable over get_bounds whose
rule is the outcome pdf, memoized. -/
def OutcomeRV.get_rv (s : OutcomeRV) : RandomVariable :=
  (RandomVariable.mk s.get_bounds.1 s.get_bounds.2 s.pdf).memoize

/-- Mirrors OutcomeRV.copy: chances shared (they are plain numbers), the
per-outcome random variables copied, caps carried over. -/
def OutcomeRV.copy (s : OutcomeRV) : OutcomeRV :=
  { outcome_chance_dict := s.outcome_chance_dict,
    outcome_rv_dict := fun o => (s.outcome_rv_dict o).copy,
    cap_lb := s.cap_lb, cap_ub := s.cap_ub }

/-- Modelled from the spec: DamageSum.copy is called by MultiAttack.copy
but no copy method exists in src/DamageSum.py (the snapshot predates
it); per spec section 5, clone operations deep-copy mutable accumulation
state, so each accumulator random variable is copied. -/
def DamageSum.copy (ds : DamageSum) : DamageSum :=
  { damage_rv := ds.damage_rv.map RandomVariable.copy,
    crit_damage_rv := ds.crit_damage_rv.map RandomVariable.copy,
    resisted_dmg_rv := ds.resisted_dmg_rv.map RandomVariable.copy,
    resisted_crit_dmg_rv := ds.resisted_crit_dmg_rv.map RandomVariable.copy }

/-- The configuration state of MultiAttack.py: the attack sequence (each
already finalized, hence an OutcomeRV), the first-hit DamageSum, and the
optional miss- and crit-triggered bonus attacks. -/
structure MultiAttack where
  attacks : List OutcomeRV
  first_hit_damage : DamageSum
  miss_atk : Option OutcomeRV
  crit_atk : Option OutcomeRV

/-- The damage_max field maintained by add_attack: the running sum of the
attack upper bounds (None while no attack was added). -/
def MultiAttack.damage_max (ma : MultiAttack) : Option Int :=
  ma.attacks.foldl
    (fun acc a => match acc with
      | none => some a.get_bounds.2
      | some m => some (m + a.get_bounds.2)) none

/-- The damage_min_ub field maintained by add_attack: the minimum attack
upper bound. -/
def MultiAttack.damage_min_ub (ma : MultiAttack) : Option Int :=
  ma.attacks.foldl
    (fun acc a => match acc with
      | none => some a.get_bounds.2
      | some m => some (min m a.get_bounds.2)) none

/-- The miss_atk_ub field maintained by add_miss_extra_attack. -/
def MultiAttack.miss_atk_ub (ma : MultiAttack) : Option Int :=
  ma.miss_atk.map (fun a => a.get_bounds.2)

/-- The crit_atk_ub field maintained by add_crit_extra_attack. -/
def MultiAttack.crit_atk_ub (ma : MultiAttack) : Option Int :=
  ma.crit_atk.map (fun a => a.get_bounds.2)

/-- Mirrors MultiAttack.has_bonus_atk. -/
def MultiAttack.has_bonus_atk (ma : MultiAttack) : Bool :=
  ma.miss_atk.isSome || ma.crit_atk.isSome

/-- Mirrors MultiAttack.copy: the attacks, the first-hit damage and the
miss-triggered attack are copied; the source method does not carry the
crit-triggered attack over. -/
def MultiAttack.copy (ma : MultiAttack) : MultiAttack :=
  { attacks := ma.attacks.map OutcomeRV.copy,
    first_hit_damage := ma.first_hit_damage.copy,
    miss_atk := ma.miss_atk.map OutcomeRV.copy,
    crit_atk := none }

/-- Mirrors MultiAttack.is_not_miss_. -/
def is_not_miss (o : HitOutcome) : Bool :=
  match o with
  | HitOutcome.MISS => false
  | _ => true

/-- Mirrors MultiAttack.is_miss_. -/
def is_miss (o : HitOutcome) : Bool :=
  match o with
  | HitOutcome.MISS => true
  | _ => false

/-- Mirrors MultiAttack.is_crit_. -/
def is_crit (o : HitOutcome) : Bool :=
  match o with
  | HitOutcome.CRIT => true
  | _ => false

/-- Mirrors MultiAttack.pick_first_passing_outcome_: the first element
of the tuple satisfying the criteria, None when none does. -/
def pick_first_passing_outcome (outcomes : List HitOutcome)
    (criteria : HitOutcome → Bool) : Option HitOutcome :=
  outcomes.find? criteria

/-- Mirrors MultiAttack.get_fhd_dmg_rv_.  The inner none branch is
unreachable: get_outcome_rv returns some whenever has_damage holds. -/
def MultiAttack.get_fhd_dmg_rv (ma : MultiAttack) (outcome : HitOutcome) :
    RandomVariable :=
  if ma.first_hit_damage.has_damage then
    match ma.first_hit_damage.get_outcome_rv outcome with
    | some rv => rv
    | none => Constant 0
  else Constant 0

/-- Mirrors MultiAttack.handle_fh_outcome_: when the outcome tuple it is
given contains a non-miss, the first such outcome selects the first-hit
damage distribution to convolve in. -/
def MultiAttack.handle_fh_outcome (ma : MultiAttack) (outcomes : List HitOutcome)
    (input_rv : RandomVariable) : RandomVariable :=
  match pick_first_passing_outcome outcomes is_not_miss with
  | some o => (input_rv.add_rv (ma.get_fhd_dmg_rv o)).memoize
  | none => input_rv

/-- Mirrors MultiAttack.get_attack_outcome_chance_: product over the
slots of each attack chance for its outcome (the source asserts equal
lengths and indexes; the zip realizes the same pairing). -/
def MultiAttack.get_attack_outcome_chance (ma : MultiAttack)
    (outcomes : List HitOutcome) : ℚ :=
  (ma.attacks.zip outcomes).foldl
    (fun product ao => product * ao.1.outcome_chance_dict ao.2) 1

/-- Mirrors MultiAttack.get_attack_outcome_rvs_: fold of add_rv with a
memoize after each step, starting from Constant 0. -/
def MultiAttack.get_attack_outcome_rvs (ma : MultiAttack)
    (outcomes : List HitOutcome) : RandomVariable :=
  (ma.attacks.zip outcomes).foldl
    (fun acc ao => (acc.add_rv (ao.1.outcome_rv_dict ao.2)).memoize) (Constant 0)

/-- Mirrors MultiAttack.generate_outcomes_product_ (each attack
contributes the three keys in order); the empty attack list, on which
the source raises an IndexError, yields the empty product. -/
def generate_outcomes_product : List OutcomeRV → List (List HitOutcome)
  | [] => []
  | [_] => allOutcomes.map (fun o => [o])
  | _ :: rest =>
    allOutcomes.flatMap (fun o => (generate_outcomes_product rest).map (fun t => o :: t))

/-- The cells that the get_dmg_rv loop body of MultiAttack.py stores in
outcomes_coeffs and outcomes_rvs for one base outcome tuple: each cell
is the extended key tuple, its probability coefficient, and its damage
distribution.  The branching mirrors the source exactly: the miss
trigger is checked on the base tuple; inside the miss expansion the crit
trigger is re-checked on the base tuple extended with the miss-attack
outcome (and symmetrically in the crit-first branch); the first-hit
handler always receives the full extended tuple. -/
def MultiAttack.cellsForBase (ma : MultiAttack) (outcomes : List HitOutcome) :
    List (List HitOutcome × ℚ × RandomVariable) :=
  let outcome_coeff := ma.get_attack_outcome_chance outcomes
  let attacks_rv := ma.get_attack_outcome_rvs outcomes
  match pick_first_passing_outcome outcomes is_miss, ma.miss_atk with
  | some _, some matk =>
    allOutcomes.flatMap (fun o =>
      let new_outcomes := outcomes ++ [o]
      let new_coeff := outcome_coeff * matk.outcome_chance_dict o
      let new_rv := (attacks_rv.add_rv (matk.outcome_rv_dict o)).memoize
      match pick_first_passing_outcome new_outcomes is_crit, ma.crit_atk with
      | some _, some catk =>
        allOutcomes.map (fun oc =>
          let new_c_outcomes := new_outcomes ++ [oc]
          (new_c_outcomes, new_coeff * catk.outcome_chance_dict oc,
            ma.handle_fh_outcome new_c_outcomes
              ((new_rv.add_rv (catk.outcome_rv_dict oc)).memoize)))
      | _, _ =>
        [(new_outcomes, new_coeff, ma.handle_fh_outcome new_outcomes new_rv)])
  | _, _ =>
    match pick_first_passing_outcome outcomes is_crit, ma.crit_atk with
    | some _, some catk =>
      allOutcomes.flatMap (fun oc =>
        let new_outcomes := outcomes ++ [oc]
        let new_coeff := outcome_coeff * catk.outcome_chance_dict oc
        let new_rv := (attacks_rv.add_rv (catk.outcome_rv_dict oc)).memoize
        match pick_first_passing_outcome new_outcomes is_miss, ma.miss_atk with
        | some _, some matk =>
          allOutcomes.map (fun om =>
            let new_m_outcomes := new_outcomes ++ [om]
            (new_m_outcomes, new_coeff * matk.outcome_chance_dict om,
              ma.handle_fh_outcome new_m_outcomes
                ((new_rv.add_rv (matk.outcome_rv_dict om)).memoize)))
        | _, _ =>
          [(new_outcomes, new_coeff, ma.handle_fh_outcome new_outcomes new_rv)])
    | _, _ =>
      [(outcomes, outcome_coeff, ma.handle_fh_outcome outcomes attacks_rv)]

/-- Mirrors the overall_pdf closure of get_dmg_rv: the coefficient-
weighted sum of the cell pdf values.  The source iterates the two dicts
keyed by the extended tuples; the keys stored for distinct base tuples
are distinct (they extend distinct prefixes), so the cell list carries
the same multiset of entries. -/
def overall_pdf (cells : List (List HitOutcome × ℚ × RandomVariable)) (x : Int) : ℚ :=
  cells.foldl (fun value c => value + c.2.1 * c.2.2.pdf x) 0

/-- Mirrors the bonus_max computation of get_dmg_rv.  damage_min_ub is
None only when no attack was added, in which case the source raises a
TypeError on the subtraction; getD 0 keeps the model total there. -/
def MultiAttack.bonus_max (ma : MultiAttack) : Int :=
  let b := (ma.get_fhd_dmg_rv HitOutcome.CRIT).upper_bound
  let b2 := match ma.miss_atk_ub with
    | some m => b + (m - ma.damage_min_ub.getD 0)
    | none => b
  match ma.crit_atk_ub with
  | some c => b2 + c
  | none => b2

/-- Mirrors MultiAttack.get_dmg_rv: the combinatorial slow path over all
base outcome tuples when a first-hit damage or a bonus attack is
configured, and the fast path convolving the unconditional per-attack
distributions otherwise; both paths memoize the result (the fast path
also after every convolution step).  damage_max is None only when no
attack was added, where the source raises; getD 0 keeps the model
total. -/
def MultiAttack.get_dmg_rv (ma : MultiAttack) : RandomVariable :=
  if ma.first_hit_damage.has_damage || ma.has_bonus_atk then
    let cells := (generate_outcomes_product ma.attacks).flatMap
      (fun t => ma.cellsForBase t)
    (RandomVariable.mk 0 (ma.damage_max.getD 0 + ma.bonus_max)
      (overall_pdf cells)).memoize
  else
    (ma.attacks.foldl (fun acc a => (acc.add_rv a.get_rv).memoize)
      (Constant 0)).memoize

/-- The cell construction asserted by the first-hit claim: identical to
cellsForBase except that the first-hit handler receives only the base
attack tuple, so a bonus-attack outcome can never carry the first-hit
bonus and an all-miss base tuple never receives it. -/
def MultiAttack.specFhBaseCells (ma : MultiAttack) (outcomes : List HitOutcome) :
    List (List HitOutcome × ℚ × RandomVariable) :=
  let outcome_coeff := ma.get_attack_outcome_chance outcomes
  let attacks_rv := ma.get_attack_outcome_rvs outcomes
  match pick_first_passing_outcome outcomes is_miss, ma.miss_atk with
  | some _, some matk =>
    allOutcomes.flatMap (fun o =>
      let new_outcomes := outcomes ++ [o]
      let new_coeff := outcome_coeff * matk.outcome_chance_dict o
      let new_rv := (attacks_rv.add_rv (matk.outcome_rv_dict o)).memoize
      match pick_first_passing_outcome new_outcomes is_crit, ma.crit_atk with
      | some _, some catk =>
        allOutcomes.map (fun oc =>
          let new_c_outcomes := new_outcomes ++ [oc]
          (new_c_outcomes, new_coeff * catk.outcome_chance_dict oc,
            ma.handle_fh_outcome outcomes
              ((new_rv.add_rv (catk.outcome_rv_dict oc)).memoize)))
      | _, _ =>
        [(new_outcomes, new_coeff, ma.handle_fh_outcome outcomes new_rv)])
  | _, _ =>
    match pick_first_passing_outcome outcomes is_crit, ma.crit_atk with
    | some _, some catk =>
      allOutcomes.flatMap (fun oc =>
        let new_outcomes := outcomes ++ [oc]
        let new_coeff := outcome_coeff * catk.outcome_chance_dict oc
        let new_rv := (attacks_rv.add_rv (catk.outcome_rv_dict oc)).memoize
        match pick_first_passing_outcome new_outcomes is_miss, ma.miss_atk with
        | some _, some matk =>
          allOutcomes.map (fun om =>
            let new_m_outcomes := new_outcomes ++ [om]
            (new_m_outcomes, new_coeff * matk.outcome_chance_dict om,
              ma.handle_fh_outcome outcomes
                ((new_rv.add_rv (matk.outcome_rv_dict om)).memoize)))
        | _, _ =>
          [(new_outcomes, new_coeff, ma.handle_fh_outcome outcomes new_rv)])
    | _, _ =>
      [(outcomes, outcome_coeff, ma.handle_fh_outcome outcomes attacks_rv)]

/-- get_dmg_rv as the first-hit claim describes it, built on
specFhBaseCells. -/
def MultiAttack.specFhBase_dmg_rv (ma : MultiAttack) : RandomVariable :=
  if ma.first_hit_damage.has_damage || ma.has_bonus_atk then
    let cells := (generate_outcomes_product ma.attacks).flatMap
      (fun t => ma.specFhBaseCells t)
    (RandomVariable.mk 0 (ma.damage_max.getD 0 + ma.bonus_max)
      (overall_pdf cells)).memoize
  else
    (ma.attacks.foldl (fun acc a => (acc.add_rv a.get_rv).memoize)
      (Constant 0)).memoize

/-- The cell construction asserted by the trigger claim: identical to
cellsForBase except that both trigger conditions are evaluated on the
original base tuple alone, never on a tuple extended with the other
bonus outcome. -/
def MultiAttack.specTrigBaseCells (ma : MultiAttack) (outcomes : List HitOutcome) :
    List (List HitOutcome × ℚ × RandomVariable) :=
  let outcome_coeff := ma.get_attack_outcome_chance outcomes
  let attacks_rv := ma.get_attack_outcome_rvs outcomes
  match pick_first_passing_outcome outcomes is_miss, ma.miss_atk with
  | some _, some matk =>
    allOutcomes.flatMap (fun o =>
      let new_outcomes := outcomes ++ [o]
      let new_coeff := outcome_coeff * matk.outcome_chance_dict o
      let new_rv := (attacks_rv.add_rv (matk.outcome_rv_dict o)).memoize
      match pick_first_passing_outcome outcomes is_crit, ma.crit_atk with
      | some _, some catk =>
        allOutcomes.map (fun oc =>
          let new_c_outcomes := new_outcomes ++ [oc]
          (new_c_outcomes, new_coeff * catk.outcome_chance_dict oc,
            ma.handle_fh_outcome new_c_outcomes
              ((new_rv.add_rv (catk.outcome_rv_dict oc)).memoize)))
      | _, _ =>
        [(new_outcomes, new_coeff, ma.handle_fh_outcome new_outcomes new_rv)])
  | _, _ =>
    match pick_first_passing_outcome outcomes is_crit, ma.crit_atk with
    | some _, some catk =>
      allOutcomes.flatMap (fun oc =>
        let new_outcomes := outcomes ++ [oc]
        let new_coeff := outcome_coeff * catk.outcome_chance_dict oc
        let new_rv := (attacks_rv.add_rv (catk.outcome_rv_dict oc)).memoize
        match pick_first_passing_outcome outcomes is_miss, ma.miss_atk with
        | some _, some matk =>
          allOutcomes.map (fun om =>
            let new_m_outcomes := new_outcomes ++ [om]
            (new_m_outcomes, new_coeff * matk.outcome_chance_dict om,
              ma.handle_fh_outcome new_m_outcomes
                ((new_rv.add_rv (matk.outcome_rv_dict om)).memoize)))
        | _, _ =>
          [(new_outcomes, new_coeff, ma.handle_fh_outcome new_outcomes new_rv)])
    | _, _ =>
      [(outcomes, outcome_coeff, ma.handle_fh_outcome outcomes attacks_rv)]

/-- get_dmg_rv as the trigger claim describes it, built on
specTrigBaseCells. -/
def MultiAttack.specTrigBase_dmg_rv (ma : MultiAttack) : RandomVariable :=
  if ma.first_hit_damage.has_damage || ma.has_bonus_atk then
    let cells := (generate_outcomes_product ma.attacks).flatMap
      (fun t => ma.specTrigBaseCells t)
    (RandomVariable.mk 0 (ma.damage_max.getD 0 + ma.bonus_max)
      (overall_pdf cells)).memoize
  else
    (ma.attacks.foldl (fun acc a => (acc.add_rv a.get_rv).memoize)
      (Constant 0)).memoize

/-- A finalized attack with the given outcome chances and constant HIT
and CRIT damage, zero MISS damage and the lower cap 0 that
Attack.__init__ installs. -/
def mkAtk (cM cH cC : ℚ) (dH dC : Int) : OutcomeRV :=
  { outcome_chance_dict := fun o =>
      match o with
      | HitOutcome.MISS => cM
      | HitOutcome.HIT => cH
      | HitOutcome.CRIT => cC,
    outcome_rv_dict := fun o =>
      match o with
      | HitOutcome.MISS => Constant 0
      | HitOutcome.HIT => Constant dH
      | HitOutcome.CRIT => Constant dC,
    cap_lb := some 0, cap_ub := none }

/-- C1 counterexample configuration: one base attack, first-hit damage
of constant 1 (crit 2), and a miss-triggered bonus attack. -/
def ma1 : MultiAttack :=
  { attacks := [mkAtk (1/2) (1/2) 0 2 4],
    first_hit_damage := DamageSum.mk (some (Constant 1)) (some (Constant 2)) none none,
    miss_atk := some (mkAtk (1/2) (1/2) 0 3 6),
    crit_atk := none }

/-- C2 counterexample configuration: one base attack, no first-hit
damage, a miss-triggered attack that always crits, and a crit-triggered
attack that always hits. -/
def ma2 : MultiAttack :=
  { attacks := [mkAtk (1/2) (1/2) 0 1 2],
    first_hit_damage := DamageSum.mk none none none none,
    miss_atk := some (mkAtk 0 0 1 1 2),
    crit_atk := some (mkAtk 0 1 0 3 4) }

/-- C9 failing configuration: one base attack that always crits and a
crit-triggered bonus attack that always hits. -/
def ma3 : MultiAttack :=
  { attacks := [mkAtk 0 0 1 1 2],
    first_hit_damage := DamageSum.mk none none none none,
    miss_atk := none,
    crit_atk := some (mkAtk 0 1 0 3 5) }


theorem pdf_Constant (k x : Int) : (Constant k).pdf x = if x = k then 1 else 0 := by
  unfold Constant RandomVariable.pdf
  by_cases h : x = k
  · subst h
    simp
  · by_cases h1 : x < k
    · simp [h1, h]
    · have h2 : x > k := by omega
      simp [h1, h2, h]

theorem pdf_add_constant (X : RandomVariable) (k x : Int) :
    (X.add_rv (Constant k)).pdf x = X.pdf (x - k) := by
  rw [add_rv_pdf_eq]
  show (Finset.Icc k k).sum (fun y => X.pdf (x - y) * (Constant k).pdf y) = _
  rw [Finset.Icc_self, Finset.sum_singleton, pdf_Constant]
  simp

theorem cdf_Constant (k x : Int) : (Constant k).cdf x = if k ≤ x then 1 else 0 := by
  show summation k x (Constant k).pdf = _
  by_cases h : k ≤ x
  · rw [summation_step k x _ h, if_pos h, pdf_Constant]
    have hz : summation (k + 1) x (Constant k).pdf = 0 := by
      unfold summation
      refine Finset.sum_eq_zero ?_
      intro y hy
      rw [Finset.mem_Icc] at hy
      exact pdf_eq_zero_of_gt (show (Constant k).upper_bound < y from by
        show k < y
        omega)
    rw [hz]
    norm_num
  · rw [summation_empty k x _ (by omega), if_neg h]

theorem pdf_mk_memoize (lb ub : Int) (f : Int → ℚ) (x : Int) :
    ((RandomVariable.mk lb ub f).memoize).pdf x
      = if x < lb then 0 else if x > ub then 0 else f x := by
  rw [pdf_memoize]
  rfl

theorem pdf_mk_eval (lb ub : Int) (f : Int → ℚ) (x : Int) :
    (RandomVariable.mk lb ub f).pdf x
      = if x < lb then 0 else if x > ub then 0 else f x := rfl

theorem Constant_lb (k : Int) : (Constant k).lower_bound = k := rfl

theorem Constant_ub (k : Int) : (Constant k).upper_bound = k := rfl

theorem copy_lb (X : RandomVariable) : X.copy.lower_bound = X.lower_bound := rfl

theorem copy_ub (X : RandomVariable) : X.copy.upper_bound = X.upper_bound := rfl

theorem memoize_lb (X : RandomVariable) : X.memoize.lower_bound = X.lower_bound := rfl

theorem memoize_ub (X : RandomVariable) : X.memoize.upper_bound = X.upper_bound := rfl

theorem add_rv_lb (X Y : RandomVariable) :
    (X.add_rv Y).lower_bound = X.lower_bound + Y.lower_bound := rfl

theorem add_rv_ub (X Y : RandomVariable) :
    (X.add_rv Y).upper_bound = X.upper_bound + Y.upper_bound := rfl

theorem pdf_add_eval (X Y : RandomVariable) (x : Int) :
    (X.add_rv Y).pdf x
      = summation Y.lower_bound Y.upper_bound (fun y => X.pdf (x - y) * Y.pdf y) :=
  add_rv_pdf_eq X Y x

theorem pdf_copy (X : RandomVariable) (x : Int) : X.copy.pdf x = X.pdf x := by
  unfold RandomVariable.copy RandomVariable.pdf
  by_cases h1 : x < X.lower_bound
  · simp [h1]
  · by_cases h2 : x > X.upper_bound
    · simp [h1, h2]
    · simp [h1, h2]

theorem cdf_copy (X : RandomVariable) (x : Int) : X.copy.cdf x = X.cdf x := by
  show (Finset.Icc X.lower_bound x).sum X.copy.pdf
      = (Finset.Icc X.lower_bound x).sum X.pdf
  exact Finset.sum_congr rfl (fun y _ => pdf_copy X y)

set_option maxHeartbeats 4000000 in
/-- C1 counterexample: with a miss-triggered bonus attack configured,
the all-miss base tuple (MISS) still receives first-hit bonus damage
when the bonus attack connects: the code puts mass 1/4 at damage 4
(bonus-attack hit 3 plus first-hit bonus 1), while the claimed
base-tuple-only scan puts no mass at 4. -/
theorem C1_counterexample :
    ma1.get_dmg_rv.pdf 4 = 1 / 4 ∧
    ma1.specFhBase_dmg_rv.pdf 4 = 0 ∧
    ma1.get_dmg_rv.pdf 4 ≠ ma1.specFhBase_dmg_rv.pdf 4 := by
  have h1 : ma1.get_dmg_rv.pdf 4 = 1 / 4 := by
    simp only [ma1, mkAtk, MultiAttack.get_dmg_rv, MultiAttack.cellsForBase,
      MultiAttack.has_bonus_atk, DamageSum.has_damage, generate_outcomes_product,
      allOutcomes, MultiAttack.get_attack_outcome_chance,
      MultiAttack.get_attack_outcome_rvs, MultiAttack.handle_fh_outcome,
      MultiAttack.get_fhd_dmg_rv, DamageSum.get_outcome_rv,
      pick_first_passing_outcome, is_miss, is_crit, is_not_miss,
      MultiAttack.bonus_max, MultiAttack.damage_max, MultiAttack.damage_min_ub,
      MultiAttack.miss_atk_ub, MultiAttack.crit_atk_ub, OutcomeRV.get_bounds,
      List.zip, List.zipWith, List.foldl, List.find?, List.flatMap, List.map,
      List.append, Option.isSome, Option.map, Option.getD, overall_pdf]
    norm_num [pdf_mk_eval, pdf_memoize, pdf_add_constant, pdf_Constant,
      Constant_lb, Constant_ub, overall_pdf, List.foldl]
  have h2 : ma1.specFhBase_dmg_rv.pdf 4 = 0 := by
    simp only [ma1, mkAtk, MultiAttack.specFhBase_dmg_rv, MultiAttack.specFhBaseCells,
      MultiAttack.has_bonus_atk, DamageSum.has_damage, generate_outcomes_product,
      allOutcomes, MultiAttack.get_attack_outcome_chance,
      MultiAttack.get_attack_outcome_rvs, MultiAttack.handle_fh_outcome,
      MultiAttack.get_fhd_dmg_rv, DamageSum.get_outcome_rv,
      pick_first_passing_outcome, is_miss, is_crit, is_not_miss,
      MultiAttack.bonus_max, MultiAttack.damage_max, MultiAttack.damage_min_ub,
      MultiAttack.miss_atk_ub, MultiAttack.crit_atk_ub, OutcomeRV.get_bounds,
      List.zip, List.zipWith, List.foldl, List.find?, List.flatMap, List.map,
      List.append, Option.isSome, Option.map, Option.getD, overall_pdf]
    norm_num [pdf_mk_eval, pdf_memoize, pdf_add_constant, pdf_Constant,
      Constant_lb, Constant_ub, overall_pdf, List.foldl]
  exact ⟨h1, h2, by rw [h1, h2]; norm_num⟩

set_option maxHeartbeats 4000000 in
/-- C2 counterexample: the crit trigger is re-evaluated on the tuple
extended with the miss-attack outcome: a base tuple with a MISS and no
CRIT still fires the crit-triggered attack when the miss-triggered
attack crits, putting mass 1/2 at damage 5 (miss-attack crit 2 plus
crit-attack hit 3), while the claimed base-tuple-only triggers put no
mass at 5. -/
theorem C2_counterexample :
    ma2.get_dmg_rv.pdf 5 = 1 / 2 ∧
    ma2.specTrigBase_dmg_rv.pdf 5 = 0 ∧
    ma2.get_dmg_rv.pdf 5 ≠ ma2.specTrigBase_dmg_rv.pdf 5 := by
  have h1 : ma2.get_dmg_rv.pdf 5 = 1 / 2 := by
    simp only [ma2, mkAtk, MultiAttack.get_dmg_rv, MultiAttack.cellsForBase,
      MultiAttack.has_bonus_atk, DamageSum.has_damage, generate_outcomes_product,
      allOutcomes, MultiAttack.get_attack_outcome_chance,
      MultiAttack.get_attack_outcome_rvs, MultiAttack.handle_fh_outcome,
      MultiAttack.get_fhd_dmg_rv, DamageSum.get_outcome_rv,
      pick_first_passing_outcome, is_miss, is_crit, is_not_miss,
      MultiAttack.bonus_max, MultiAttack.damage_max, MultiAttack.damage_min_ub,
      MultiAttack.miss_atk_ub, MultiAttack.crit_atk_ub, OutcomeRV.get_bounds,
      List.zip, List.zipWith, List.foldl, List.find?, List.flatMap, List.map,
      List.append, Option.isSome, Option.map, Option.getD, overall_pdf]
    norm_num [pdf_mk_eval, pdf_memoize, pdf_add_constant, pdf_Constant,
      Constant_lb, Constant_ub, overall_pdf, List.foldl]
  have h2 : ma2.specTrigBase_dmg_rv.pdf 5 = 0 := by
    simp only [ma2, mkAtk, MultiAttack.specTrigBase_dmg_rv, MultiAttack.specTrigBaseCells,
      MultiAttack.has_bonus_atk, DamageSum.has_damage, generate_outcomes_product,
      allOutcomes, MultiAttack.get_attack_outcome_chance,
      MultiAttack.get_attack_outcome_rvs, MultiAttack.handle_fh_outcome,
      MultiAttack.get_fhd_dmg_rv, DamageSum.get_outcome_rv,
      pick_first_passing_outcome, is_miss, is_crit, is_not_miss,
      MultiAttack.bonus_max, MultiAttack.damage_max, MultiAttack.damage_min_ub,
      MultiAttack.miss_atk_ub, MultiAttack.crit_atk_ub, OutcomeRV.get_bounds,
      List.zip, List.zipWith, List.foldl, List.find?, List.flatMap, List.map,
      List.append, Option.isSome, Option.map, Option.getD, overall_pdf]
    norm_num [pdf_mk_eval, pdf_memoize, pdf_add_constant, pdf_Constant,
      Constant_lb, Constant_ub, overall_pdf, List.foldl]
  exact ⟨h1, h2, by rw [h1, h2]; norm_num⟩

set_option maxHeartbeats 4000000 in
/-- C9: MultiAttack.copy drops the crit-triggered bonus attack (it
copies the attacks, the first-hit damage and the miss-triggered attack
only), so the copy of a MultiAttack with a crit-triggered attack
computes a different damage distribution: the original puts mass 1 at 5
(base crit 2 plus triggered hit 3), the copy puts mass 0 there. -/
theorem C9_copy_drops_crit_attack :
    ma3.copy.crit_atk = none ∧
    ma3.crit_atk = some (mkAtk 0 1 0 3 5) ∧
    ma3.get_dmg_rv.pdf 5 = 1 ∧
    ma3.copy.get_dmg_rv.pdf 5 = 0 := by
  refine ⟨rfl, rfl, ?_, ?_⟩
  · simp only [ma3, mkAtk, MultiAttack.get_dmg_rv, MultiAttack.cellsForBase,
      MultiAttack.has_bonus_atk, DamageSum.has_damage, generate_outcomes_product,
      allOutcomes, MultiAttack.get_attack_outcome_chance,
      MultiAttack.get_attack_outcome_rvs, MultiAttack.handle_fh_outcome,
      MultiAttack.get_fhd_dmg_rv, DamageSum.get_outcome_rv,
      pick_first_passing_outcome, is_miss, is_crit, is_not_miss,
      MultiAttack.bonus_max, MultiAttack.damage_max, MultiAttack.damage_min_ub,
      MultiAttack.miss_atk_ub, MultiAttack.crit_atk_ub, OutcomeRV.get_bounds,
      List.zip, List.zipWith, List.foldl, List.find?, List.flatMap, List.map,
      List.append, Option.isSome, Option.map, Option.getD, overall_pdf]
    norm_num [pdf_mk_eval, pdf_memoize, pdf_add_constant, pdf_Constant,
      Constant_lb, Constant_ub, overall_pdf, List.foldl]
  · simp only [ma3, mkAtk, MultiAttack.copy, OutcomeRV.copy, DamageSum.copy,
      MultiAttack.get_dmg_rv, MultiAttack.has_bonus_atk, DamageSum.has_damage,
      OutcomeRV.get_rv, OutcomeRV.get_bounds,
      List.foldl, List.map, Option.isSome, Option.map]
    norm_num [pdf_mk_eval, pdf_memoize, pdf_add_eval, pdf_add_constant,
      pdf_Constant, pdf_copy, cdf_copy, cdf_Constant, Constant_lb, Constant_ub,
      copy_lb, copy_ub, memoize_lb, memoize_ub, add_rv_lb, add_rv_ub,
      OutcomeRV.pdf, OutcomeRV.outcome_pdf_,
      summation_step, summation_empty]

theorem pick_append_of_some (t ext : List HitOutcome) (c : HitOutcome → Bool)
    (o : HitOutcome) (h : pick_first_passing_outcome t c = some o) :
    pick_first_passing_outcome (t ++ ext) c = some o := by
  unfold pick_first_passing_outcome at h ⊢
  induction t with
  | nil => simp [List.find?] at h
  | cons a t ih =>
    rw [List.cons_append]
    rw [List.find?_cons] at h ⊢
    cases hc : c a with
    | true => rw [hc] at h; simpa [hc] using h
    | false => rw [hc] at h; simpa [hc] using ih h

theorem pick_append_of_none (t ext : List HitOutcome) (c : HitOutcome → Bool)
    (h : pick_first_passing_outcome t c = none) :
    pick_first_passing_outcome (t ++ ext) c
      = pick_first_passing_outcome ext c := by
  unfold pick_first_passing_outcome at h ⊢
  induction t with
  | nil => simp
  | cons a t ih =>
    rw [List.cons_append]
    rw [List.find?_cons] at h ⊢
    cases hc : c a with
    | true => rw [hc] at h; simp at h
    | false => rw [hc] at h; simpa [hc] using ih h

theorem pick_append_single_isSome (t : List HitOutcome) (o : HitOutcome)
    (c : HitOutcome → Bool) :
    (pick_first_passing_outcome (t ++ [o]) c).isSome
      ↔ ((pick_first_passing_outcome t c).isSome ∨ c o = true) := by
  unfold pick_first_passing_outcome
  simp only [List.find?_isSome, List.mem_append, List.mem_singleton]
  constructor
  · rintro ⟨x, hx | hx, hcx⟩
    · exact Or.inl ⟨x, hx, hcx⟩
    · subst hx
      exact Or.inr hcx
  · rintro (⟨x, hx, hcx⟩ | hco)
    · exact ⟨x, Or.inl hx, hcx⟩
    · exact ⟨o, Or.inr rfl, hco⟩

theorem is_crit_eq_true_iff (o : HitOutcome) : is_crit o = true ↔ o = HitOutcome.CRIT := by
  cases o <;> simp [is_crit]

theorem is_miss_eq_true_iff (o : HitOutcome) : is_miss o = true ↔ o = HitOutcome.MISS := by
  cases o <;> simp [is_miss]

/-- C1 (amended): the first-hit bonus for a combinatorial cell is keyed
by the first non-MISS outcome of the full tuple handle_fh_outcome_
receives, scanned left to right.  In get_dmg_rv that tuple is the base
tuple extended with the appended bonus-attack outcomes, so: a cell whose
whole tuple is MISS gets no bonus; when the bonus is added, the added
distribution is the first-hit damage of the first non-miss outcome;
any non-miss in the base tuple takes priority over appended outcomes;
an all-miss base tuple defers the scan to the appended bonus outcomes;
and with no bonus attacks configured the cell of a base tuple is keyed
by exactly that base tuple. -/
theorem C1_first_hit_scan (ma : MultiAttack) :
    (∀ (u : List HitOutcome) (r : RandomVariable),
      pick_first_passing_outcome u is_not_miss = none →
      ma.handle_fh_outcome u r = r) ∧
    (∀ (u : List HitOutcome) (r : RandomVariable) (o : HitOutcome),
      pick_first_passing_outcome u is_not_miss = some o →
      ∀ x : Int, (ma.handle_fh_outcome u r).pdf x
        = (r.add_rv (ma.get_fhd_dmg_rv o)).pdf x) ∧
    (∀ (t ext : List HitOutcome) (o : HitOutcome),
      pick_first_passing_outcome t is_not_miss = some o →
      pick_first_passing_outcome (t ++ ext) is_not_miss = some o) ∧
    (∀ t ext : List HitOutcome,
      pick_first_passing_outcome t is_not_miss = none →
      pick_first_passing_outcome (t ++ ext) is_not_miss
        = pick_first_passing_outcome ext is_not_miss) ∧
    (∀ t : List HitOutcome, ma.miss_atk = none → ma.crit_atk = none →
      ma.cellsForBase t = [(t, ma.get_attack_outcome_chance t,
        ma.handle_fh_outcome t (ma.get_attack_outcome_rvs t))]) := by
  refine ⟨?_, ?_, ?_, ?_, ?_⟩
  · intro u r h
    simp [MultiAttack.handle_fh_outcome, h]
  · intro u r o h x
    unfold MultiAttack.handle_fh_outcome
    rw [h]
    exact pdf_memoize _ _
  · exact fun t ext o h => pick_append_of_some t ext is_not_miss o h
  · exact fun t ext h => pick_append_of_none t ext is_not_miss h
  · intro t hm hc
    unfold MultiAttack.cellsForBase
    rw [hm, hc]
    cases pick_first_passing_outcome t is_miss <;>
      cases pick_first_passing_outcome t is_crit <;> rfl

theorem C1_witness :
    ma1.handle_fh_outcome [HitOutcome.MISS] (Constant 0) = Constant 0 ∧
    pick_first_passing_outcome
        ([HitOutcome.MISS] ++ [HitOutcome.HIT, HitOutcome.CRIT]) is_not_miss
      = pick_first_passing_outcome [HitOutcome.HIT, HitOutcome.CRIT] is_not_miss ∧
    pick_first_passing_outcome
        ([HitOutcome.HIT] ++ [HitOutcome.CRIT]) is_not_miss = some HitOutcome.HIT :=
  ⟨(C1_first_hit_scan ma1).1 [HitOutcome.MISS] (Constant 0) (by decide),
   (C1_first_hit_scan ma1).2.2.2.1 [HitOutcome.MISS] [HitOutcome.HIT, HitOutcome.CRIT]
     (by decide),
   (C1_first_hit_scan ma1).2.2.1 [HitOutcome.HIT] [HitOutcome.CRIT] HitOutcome.HIT
     (by decide)⟩

/-- C2 (amended): when the base tuple contains a MISS and both bonus
attacks are configured, the miss-triggered attack is expanded first (its
outcome sits right after the base tuple in every stored cell key) and
the crit trigger is then re-evaluated per sub-branch on the base tuple
extended with the miss-attack outcome, not on the base tuple alone: the
crit expansion happens exactly for the sub-branches whose extended tuple
contains a CRIT, and the extended tuple contains a CRIT precisely when
the base tuple does or the miss-attack outcome itself is a CRIT (and
symmetrically for the miss condition after a crit expansion). -/
theorem C2_trigger_order (ma : MultiAttack) (t : List HitOutcome)
    (matk catk : OutcomeRV) (hm : ma.miss_atk = some matk)
    (hc : ma.crit_atk = some catk) :
    ((pick_first_passing_outcome t is_miss).isSome →
      ∀ c ∈ ma.cellsForBase t, ∃ o : HitOutcome,
        (¬ (pick_first_passing_outcome (t ++ [o]) is_crit).isSome ∧
          c.1 = t ++ [o]) ∨
        ((pick_first_passing_outcome (t ++ [o]) is_crit).isSome ∧
          ∃ oc : HitOutcome, c.1 = t ++ [o, oc])) ∧
    (∀ o : HitOutcome, (pick_first_passing_outcome (t ++ [o]) is_crit).isSome
      ↔ ((pick_first_passing_outcome t is_crit).isSome ∨ o = HitOutcome.CRIT)) ∧
    (∀ o : HitOutcome, (pick_first_passing_outcome (t ++ [o]) is_miss).isSome
      ↔ ((pick_first_passing_outcome t is_miss).isSome ∨ o = HitOutcome.MISS)) := by
  refine ⟨?_, ?_, ?_⟩
  · intro hs c hcell
    obtain ⟨m, hmE⟩ := Option.isSome_iff_exists.mp hs
    simp only [MultiAttack.cellsForBase, hm, hc, hmE] at hcell
    simp only [List.mem_flatMap] at hcell
    obtain ⟨o, _, hco⟩ := hcell
    refine ⟨o, ?_⟩
    cases hpc : pick_first_passing_outcome (t ++ [o]) is_crit with
    | none =>
      rw [hpc] at hco
      simp only [List.mem_singleton] at hco
      left
      refine ⟨by simp, ?_⟩
      rw [hco]
    | some u =>
      rw [hpc] at hco
      simp only [List.mem_map] at hco
      obtain ⟨oc, _, hceq⟩ := hco
      right
      refine ⟨by simp, oc, ?_⟩
      rw [← hceq]
      simp
  · intro o
    rw [pick_append_single_isSome t o is_crit, is_crit_eq_true_iff]
  · intro o
    rw [pick_append_single_isSome t o is_miss, is_miss_eq_true_iff]

theorem C2_witness :
    ((pick_first_passing_outcome ([HitOutcome.MISS] ++ [HitOutcome.CRIT])
        is_crit).isSome
      ↔ ((pick_first_passing_outcome [HitOutcome.MISS] is_crit).isSome
        ∨ HitOutcome.CRIT = HitOutcome.CRIT)) ∧
    ((pick_first_passing_outcome ([HitOutcome.MISS] ++ [HitOutcome.HIT])
        is_miss).isSome
      ↔ ((pick_first_passing_outcome [HitOutcome.MISS] is_miss).isSome
        ∨ HitOutcome.HIT = HitOutcome.MISS)) :=
  ⟨(C2_trigger_order ma2 [HitOutcome.MISS] (mkAtk 0 0 1 1 2) (mkAtk 0 1 0 3 4)
      rfl rfl).2.1 HitOutcome.CRIT,
   (C2_trigger_order ma2 [HitOutcome.MISS] (mkAtk 0 0 1 1 2) (mkAtk 0 1 0 3 4)
      rfl rfl).2.2 HitOutcome.HIT⟩

theorem conv_range_extend (W Z : RandomVariable) {a b : Int}
    (ha : a ≤ Z.lower_bound) (hb : Z.upper_bound ≤ b) (x : Int) :
    (Finset.Icc a b).sum (fun y => W.pdf (x - y) * Z.pdf y) = (W.add_rv Z).pdf x := by
  rw [add_rv_pdf_eq]
  refine (Finset.sum_subset (Finset.Icc_subset_Icc ha hb) ?_).symm
  intro y _ hy
  rw [Finset.mem_Icc] at hy
  push_neg at hy
  by_cases hlt : y < Z.lower_bound
  · rw [pdf_eq_zero_of_lt hlt, mul_zero]
  · rw [pdf_eq_zero_of_gt (hy (not_lt.mp hlt)), mul_zero]

theorem cdf_at_zero (X : RandomVariable) (h : 0 ≤ X.lower_bound) :
    X.cdf 0 = X.pdf 0 := by
  by_cases hlt : 0 < X.lower_bound
  · rw [cdf_before_lb X hlt, pdf_eq_zero_of_lt hlt]
  · have heq : X.lower_bound = 0 := by omega
    unfold RandomVariable.cdf
    rw [heq, summation_step 0 0 _ le_rfl, summation_empty (0 + 1) 0 _ (by omega), add_zero]

/-- The shape every finalized Attack has after finish_setup: cap_lb 0,
no cap_ub, and per-outcome damage distributions with non-negative lower
bounds (the spec invariant that damage is never negative). -/
def atkOK (a : OutcomeRV) : Prop :=
  a.cap_lb = some 0 ∧ a.cap_ub = none ∧
  0 ≤ (a.outcome_rv_dict HitOutcome.MISS).lower_bound ∧
  0 ≤ (a.outcome_rv_dict HitOutcome.HIT).lower_bound ∧
  0 ≤ (a.outcome_rv_dict HitOutcome.CRIT).lower_bound

theorem get_rv_pdf_mix (a : OutcomeRV) (h : atkOK a) (x : Int) :
    a.get_rv.pdf x
      = a.outcome_chance_dict HitOutcome.MISS
          * (a.outcome_rv_dict HitOutcome.MISS).pdf x
        + a.outcome_chance_dict HitOutcome.HIT
          * (a.outcome_rv_dict HitOutcome.HIT).pdf x
        + a.outcome_chance_dict HitOutcome.CRIT
          * (a.outcome_rv_dict HitOutcome.CRIT).pdf x := by
  obtain ⟨hcl, hcu, hM, hH, hC⟩ := h
  have hb1 : a.get_bounds.1 = 0 := by
    simp [OutcomeRV.get_bounds, hcl]
  have hb2 : a.get_bounds.2
      = max (max (a.outcome_rv_dict HitOutcome.MISS).upper_bound
          (a.outcome_rv_dict HitOutcome.HIT).upper_bound)
        (a.outcome_rv_dict HitOutcome.CRIT).upper_bound := by
    simp [OutcomeRV.get_bounds, hcu]
  have hUM : (a.outcome_rv_dict HitOutcome.MISS).upper_bound ≤ a.get_bounds.2 := by
    rw [hb2]
    exact le_trans (le_max_left _ _) (le_max_left _ _)
  have hUH : (a.outcome_rv_dict HitOutcome.HIT).upper_bound ≤ a.get_bounds.2 := by
    rw [hb2]
    exact le_trans (le_max_right _ _) (le_max_left _ _)
  have hUC : (a.outcome_rv_dict HitOutcome.CRIT).upper_bound ≤ a.get_bounds.2 := by
    rw [hb2]
    exact le_max_right _ _
  unfold OutcomeRV.get_rv
  rw [pdf_mk_memoize, hb1]
  have hpdf : OutcomeRV.pdf a x
      = (if x < 0 then 0
        else if x = 0 then
          a.outcome_pdf_ (fun o y => (a.outcome_rv_dict o).cdf y) x
        else a.outcome_pdf_ (fun o y => (a.outcome_rv_dict o).pdf y) x) := by
    unfold OutcomeRV.pdf
    rw [hcl, hcu]
  by_cases hx0 : x < 0
  · rw [if_pos hx0]
    rw [pdf_eq_zero_of_lt (lt_of_lt_of_le hx0 hM),
      pdf_eq_zero_of_lt (lt_of_lt_of_le hx0 hH),
      pdf_eq_zero_of_lt (lt_of_lt_of_le hx0 hC)]
    ring
  · rw [if_neg hx0]
    by_cases hxu : x > a.get_bounds.2
    · rw [if_pos hxu]
      rw [pdf_eq_zero_of_gt (lt_of_le_of_lt hUM hxu),
        pdf_eq_zero_of_gt (lt_of_le_of_lt hUH hxu),
        pdf_eq_zero_of_gt (lt_of_le_of_lt hUC hxu)]
      ring
    · rw [if_neg hxu, hpdf, if_neg hx0]
      by_cases hx : x = 0
      · rw [if_pos hx]
        unfold OutcomeRV.outcome_pdf_
        subst hx
        dsimp only
        rw [cdf_at_zero _ hM, cdf_at_zero _ hH, cdf_at_zero _ hC]
      · rw [if_neg hx]
        rfl

theorem fastStep_mix (a : OutcomeRV) (h : atkOK a) (acc : RandomVariable) (x : Int) :
    ((acc.add_rv a.get_rv).memoize).pdf x
      = a.outcome_chance_dict HitOutcome.MISS
          * ((acc.add_rv (a.outcome_rv_dict HitOutcome.MISS)).memoize).pdf x
        + a.outcome_chance_dict HitOutcome.HIT
          * ((acc.add_rv (a.outcome_rv_dict HitOutcome.HIT)).memoize).pdf x
        + a.outcome_chance_dict HitOutcome.CRIT
          * ((acc.add_rv (a.outcome_rv_dict HitOutcome.CRIT)).memoize).pdf x := by
  obtain ⟨hcl, hcu, hM, hH, hC⟩ := h
  have hgl : a.get_rv.lower_bound = 0 := by
    show a.get_bounds.1 = 0
    simp [OutcomeRV.get_bounds, hcl]
  have hgu : a.get_rv.upper_bound
      = max (max (a.outcome_rv_dict HitOutcome.MISS).upper_bound
          (a.outcome_rv_dict HitOutcome.HIT).upper_bound)
        (a.outcome_rv_dict HitOutcome.CRIT).upper_bound := by
    show a.get_bounds.2 = _
    simp [OutcomeRV.get_bounds, hcu]
  rw [pdf_memoize, pdf_memoize, pdf_memoize, pdf_memoize, add_rv_pdf_eq]
  have hcong : ∀ y ∈ Finset.Icc a.get_rv.lower_bound a.get_rv.upper_bound,
      acc.pdf (x - y) * a.get_rv.pdf y
        = a.outcome_chance_dict HitOutcome.MISS
            * (acc.pdf (x - y) * (a.outcome_rv_dict HitOutcome.MISS).pdf y)
          + a.outcome_chance_dict HitOutcome.HIT
            * (acc.pdf (x - y) * (a.outcome_rv_dict HitOutcome.HIT).pdf y)
          + a.outcome_chance_dict HitOutcome.CRIT
            * (acc.pdf (x - y) * (a.outcome_rv_dict HitOutcome.CRIT).pdf y) := by
    intro y _
    rw [get_rv_pdf_mix a ⟨hcl, hcu, hM, hH, hC⟩ y]
    ring
  rw [Finset.sum_congr rfl hcong, Finset.sum_add_distrib, Finset.sum_add_distrib,
    ← Finset.mul_sum, ← Finset.mul_sum, ← Finset.mul_sum]
  rw [conv_range_extend acc (a.outcome_rv_dict HitOutcome.MISS)
      (by rw [hgl]; exact hM) (by rw [hgu]; exact le_trans (le_max_left _ _) (le_max_left _ _)) x,
    conv_range_extend acc (a.outcome_rv_dict HitOutcome.HIT)
      (by rw [hgl]; exact hH) (by rw [hgu]; exact le_trans (le_max_right _ _) (le_max_left _ _)) x,
    conv_range_extend acc (a.outcome_rv_dict HitOutcome.CRIT)
      (by rw [hgl]; exact hC) (by rw [hgu]; exact le_max_right _ _) x]

theorem list_map_sum_congr {α : Type} (S : List α) (f g : α → ℚ)
    (h : ∀ a ∈ S, f a = g a) : (S.map f).sum = (S.map g).sum := by
  induction S with
  | nil => rfl
  | cons a S ih =>
    simp only [List.map_cons, List.sum_cons]
    rw [h a (by simp), ih (fun b hb => h b (by simp [hb]))]

theorem list_sum_map_mul_left {α : Type} (S : List α) (f : α → ℚ) (c : ℚ) :
    (S.map (fun a => c * f a)).sum = c * (S.map f).sum := by
  induction S with
  | nil => simp
  | cons a S ih =>
    simp only [List.map_cons, List.sum_cons, ih]
    ring

theorem list_sum_map_mul_right {α : Type} (S : List α) (f : α → ℚ) (c : ℚ) :
    (S.map f).sum * c = (S.map (fun a => f a * c)).sum := by
  induction S with
  | nil => simp
  | cons a S ih =>
    simp only [List.map_cons, List.sum_cons, ← ih]
    ring

theorem list_sum_map_add {α : Type} (S : List α) (f g : α → ℚ) :
    (S.map (fun a => f a + g a)).sum = (S.map f).sum + (S.map g).sum := by
  induction S with
  | nil => simp
  | cons a S ih =>
    simp only [List.map_cons, List.sum_cons, ih]
    ring

theorem finsetSum_listSum_swap {α : Type} (s : Finset Int) (S : List α)
    (g : Int → α → ℚ) :
    s.sum (fun y => (S.map (fun a => g y a)).sum)
      = (S.map (fun a => s.sum (fun y => g y a))).sum := by
  induction S with
  | nil => simp
  | cons a S ih =>
    simp only [List.map_cons, List.sum_cons, Finset.sum_add_distrib, ih]

theorem list_sum_swap {α β : Type} (A : List α) (B : List β) (g : α → β → ℚ) :
    (A.map (fun t => (B.map (fun o => g t o)).sum)).sum
      = (B.map (fun o => (A.map (fun t => g t o)).sum)).sum := by
  induction A with
  | nil => simp
  | cons t A ih =>
    simp only [List.map_cons, List.sum_cons, ih, ← list_sum_map_add]

theorem list_sum_map_flatMap {α β : Type} (B : List β) (F : β → List α) (h : α → ℚ) :
    ((B.flatMap F).map h).sum = (B.map (fun o => ((F o).map h).sum)).sum := by
  induction B with
  | nil => simp
  | cons o B ih =>
    simp only [List.flatMap_cons, List.map_append, List.sum_append, ih,
      List.map_cons, List.sum_cons]

theorem foldl_mul_init (L : List (OutcomeRV × HitOutcome)) (q : ℚ) :
    List.foldl (fun p ao => p * ao.1.outcome_chance_dict ao.2) q L
      = q * List.foldl (fun p ao => p * ao.1.outcome_chance_dict ao.2) 1 L := by
  induction L generalizing q with
  | nil => simp
  | cons ao L ih =>
    rw [List.foldl_cons, List.foldl_cons, ih (q * ao.1.outcome_chance_dict ao.2),
      ih (1 * ao.1.outcome_chance_dict ao.2)]
    ring

theorem foldl_slow_mix (L : List (OutcomeRV × HitOutcome))
    (S : List (ℚ × RandomVariable)) (acc : RandomVariable)
    (hacc : ∀ x : Int, acc.pdf x = (S.map (fun cr => cr.1 * cr.2.pdf x)).sum)
    (x : Int) :
    (List.foldl (fun acc ao => (acc.add_rv (ao.1.outcome_rv_dict ao.2)).memoize)
      acc L).pdf x
      = (S.map (fun cr => cr.1
          * (List.foldl
              (fun acc ao => (acc.add_rv (ao.1.outcome_rv_dict ao.2)).memoize)
              cr.2 L).pdf x)).sum := by
  induction L generalizing acc S with
  | nil => simpa using hacc x
  | cons ao L ih =>
    rw [List.foldl_cons]
    have hacc2 : ∀ z : Int,
        ((acc.add_rv (ao.1.outcome_rv_dict ao.2)).memoize).pdf z
          = ((S.map (fun cr =>
              (cr.1, (cr.2.add_rv (ao.1.outcome_rv_dict ao.2)).memoize))).map
              (fun cr => cr.1 * cr.2.pdf z)).sum := by
      intro z
      rw [pdf_memoize, add_rv_pdf_eq]
      simp only [List.map_map, Function.comp]
      have hstep1 : ∀ y ∈ Finset.Icc (ao.1.outcome_rv_dict ao.2).lower_bound
          (ao.1.outcome_rv_dict ao.2).upper_bound,
          acc.pdf (z - y) * (ao.1.outcome_rv_dict ao.2).pdf y
            = (S.map (fun cr =>
                cr.1 * (cr.2.pdf (z - y) * (ao.1.outcome_rv_dict ao.2).pdf y))).sum := by
        intro y _
        rw [hacc (z - y), list_sum_map_mul_right]
        refine list_map_sum_congr S _ _ ?_
        intro cr _
        ring
      rw [Finset.sum_congr rfl hstep1, finsetSum_listSum_swap]
      refine list_map_sum_congr S _ _ ?_
      intro cr _
      rw [← Finset.mul_sum, ← add_rv_pdf_eq cr.2 (ao.1.outcome_rv_dict ao.2) z,
        ← pdf_memoize (cr.2.add_rv (ao.1.outcome_rv_dict ao.2)) z]
      rfl
    rw [ih (S.map (fun cr =>
        (cr.1, (cr.2.add_rv (ao.1.outcome_rv_dict ao.2)).memoize)))
      ((acc.add_rv (ao.1.outcome_rv_dict ao.2)).memoize) hacc2 ]
    simp only [List.map_map, Function.comp]
    refine list_map_sum_congr S _ _ ?_
    intro cr _
    rfl

theorem fast_eq_enum (as : List OutcomeRV) :
    as ≠ [] → (∀ a ∈ as, atkOK a) →
    ∀ (acc : RandomVariable) (x : Int),
    (List.foldl (fun acc a => (acc.add_rv a.get_rv).memoize) acc as).pdf x
      = ((generate_outcomes_product as).map (fun t =>
          List.foldl (fun p ao => p * ao.1.outcome_chance_dict ao.2) 1 (as.zip t)
            * (List.foldl
                (fun acc ao => (acc.add_rv (ao.1.outcome_rv_dict ao.2)).memoize)
                acc (as.zip t)).pdf x)).sum := by
  induction as with
  | nil => intro h; exact absurd rfl h
  | cons a rest ih =>
    intro _ hok acc x
    cases rest with
    | nil =>
      rw [show generate_outcomes_product [a] = allOutcomes.map (fun o => [o]) from rfl,
        List.foldl_cons, List.foldl_nil,
        fastStep_mix a (hok a (by simp)) acc x]
      simp only [allOutcomes, List.map_cons, List.map_nil, List.sum_cons, List.sum_nil]
      show _ = 1 * a.outcome_chance_dict HitOutcome.MISS
          * ((acc.add_rv (a.outcome_rv_dict HitOutcome.MISS)).memoize).pdf x
        + (1 * a.outcome_chance_dict HitOutcome.HIT
          * ((acc.add_rv (a.outcome_rv_dict HitOutcome.HIT)).memoize).pdf x
        + (1 * a.outcome_chance_dict HitOutcome.CRIT
          * ((acc.add_rv (a.outcome_rv_dict HitOutcome.CRIT)).memoize).pdf x + 0))
      ring
    | cons b bs =>
      rw [List.foldl_cons,
        ih (by simp) (fun a2 ha2 => hok a2 (by simp [ha2]))
          ((acc.add_rv a.get_rv).memoize) x]
      have hmixS : ∀ z : Int, ((acc.add_rv a.get_rv).memoize).pdf z
          = (([(a.outcome_chance_dict HitOutcome.MISS,
                 (acc.add_rv (a.outcome_rv_dict HitOutcome.MISS)).memoize),
               (a.outcome_chance_dict HitOutcome.HIT,
                 (acc.add_rv (a.outcome_rv_dict HitOutcome.HIT)).memoize),
               (a.outcome_chance_dict HitOutcome.CRIT,
                 (acc.add_rv (a.outcome_rv_dict HitOutcome.CRIT)).memoize)]).map
             (fun cr => cr.1 * cr.2.pdf z)).sum := by
        intro z
        rw [fastStep_mix a (hok a (by simp)) acc z]
        simp only [List.map_cons, List.map_nil, List.sum_cons, List.sum_nil]
        ring
      have hstep : ∀ t ∈ generate_outcomes_product (b :: bs),
          List.foldl (fun p ao => p * ao.1.outcome_chance_dict ao.2) 1
              ((b :: bs).zip t)
            * (List.foldl
                (fun acc ao => (acc.add_rv (ao.1.outcome_rv_dict ao.2)).memoize)
                ((acc.add_rv a.get_rv).memoize) ((b :: bs).zip t)).pdf x
          = (([(a.outcome_chance_dict HitOutcome.MISS,
                 (acc.add_rv (a.outcome_rv_dict HitOutcome.MISS)).memoize),
               (a.outcome_chance_dict HitOutcome.HIT,
                 (acc.add_rv (a.outcome_rv_dict HitOutcome.HIT)).memoize),
               (a.outcome_chance_dict HitOutcome.CRIT,
                 (acc.add_rv (a.outcome_rv_dict HitOutcome.CRIT)).memoize)]).map
              (fun cr =>
                List.foldl (fun p ao => p * ao.1.outcome_chance_dict ao.2) 1
                    ((b :: bs).zip t)
                  * (cr.1 * (List.foldl
                      (fun acc ao => (acc.add_rv (ao.1.outcome_rv_dict ao.2)).memoize)
                      cr.2 ((b :: bs).zip t)).pdf x))).sum := by
        intro t _
        rw [foldl_slow_mix ((b :: bs).zip t) _ _ hmixS x, ← list_sum_map_mul_left]
      rw [list_map_sum_congr _ _ _ hstep, list_sum_swap]
      rw [show generate_outcomes_product (a :: b :: bs)
          = allOutcomes.flatMap (fun o =>
              (generate_outcomes_product (b :: bs)).map (fun t => o :: t)) from rfl,
        list_sum_map_flatMap]
      simp only [allOutcomes, List.map_cons, List.map_nil, List.sum_cons, List.sum_nil,
        List.map_map, Function.comp_def]
      have hcf : ∀ (o : HitOutcome) (t : List HitOutcome),
          List.foldl (fun p ao => p * ao.1.outcome_chance_dict ao.2) 1
              ((a :: b :: bs).zip (o :: t))
            = a.outcome_chance_dict o
              * List.foldl (fun p ao => p * ao.1.outcome_chance_dict ao.2) 1
                  ((b :: bs).zip t) := by
        intro o t
        rw [show (a :: b :: bs).zip (o :: t) = (a, o) :: ((b :: bs).zip t) from rfl,
          List.foldl_cons, foldl_mul_init, one_mul]
      have e1 : ∀ (o : HitOutcome),
          ((generate_outcomes_product (b :: bs)).map (fun t =>
            List.foldl (fun p ao => p * ao.1.outcome_chance_dict ao.2) 1
                ((b :: bs).zip t)
              * (a.outcome_chance_dict o
                * (List.foldl
                    (fun acc ao => (acc.add_rv (ao.1.outcome_rv_dict ao.2)).memoize)
                    ((acc.add_rv (a.outcome_rv_dict o)).memoize)
                    ((b :: bs).zip t)).pdf x))).sum
          = ((generate_outcomes_product (b :: bs)).map (fun t =>
              List.foldl (fun p ao => p * ao.1.outcome_chance_dict ao.2) 1
                  ((a :: b :: bs).zip (o :: t))
                * (List.foldl
                    (fun acc ao => (acc.add_rv (ao.1.outcome_rv_dict ao.2)).memoize)
                    acc ((a :: b :: bs).zip (o :: t))).pdf x)).sum := by
        intro o
        refine list_map_sum_congr _ _ _ ?_
        intro t _
        rw [hcf o t,
          show (a :: b :: bs).zip (o :: t) = (a, o) :: ((b :: bs).zip t) from rfl,
          List.foldl_cons]
        ring
      rw [e1 HitOutcome.MISS, e1 HitOutcome.HIT, e1 HitOutcome.CRIT]

/-- C6: with no first-hit bonus damage and no miss- or crit-triggered
bonus attack, get_dmg_rv takes the fast path - the plain convolution of
the attacks' unconditional per-round damage distributions - and, for
attacks whose caps are the standard zero floor with no upper cap and
whose per-outcome damage is non-negative, that distribution is pointwise
equal to the full combinatorial outcome enumeration: the sum over all
3^n outcome tuples of the product of per-slot chances times the pdf of
the convolved per-slot outcome damage. -/
theorem C6_fast_path_eq_enumeration (ma : MultiAttack)
    (hfh : ma.first_hit_damage.has_damage = false)
    (hm : ma.miss_atk = none) (hc : ma.crit_atk = none)
    (hne : ma.attacks ≠ []) (hok : ∀ a ∈ ma.attacks, atkOK a) (x : Int) :
    ma.get_dmg_rv.pdf x
      = ((generate_outcomes_product ma.attacks).map (fun t =>
          ma.get_attack_outcome_chance t
            * (ma.get_attack_outcome_rvs t).pdf x)).sum := by
  have hcond : (ma.first_hit_damage.has_damage || ma.has_bonus_atk) = false := by
    simp [MultiAttack.has_bonus_atk, hfh, hm, hc]
  unfold MultiAttack.get_dmg_rv
  rw [hcond]
  simp only [Bool.false_eq_true, if_false]
  rw [pdf_memoize, fast_eq_enum ma.attacks hne hok (Constant 0) x]
  unfold MultiAttack.get_attack_outcome_chance MultiAttack.get_attack_outcome_rvs
  rfl

/-- A bonus-free MultiAttack for the C6 witness: one attack, no first-hit
damage, no triggered attacks. -/
def ma6 : MultiAttack :=
  { attacks := [mkAtk (1/2) (1/2) 0 2 4],
    first_hit_damage := DamageSum.mk none none none none,
    miss_atk := none, crit_atk := none }

/-- C6 witness: the fast path and the enumeration agree at damage 2 for
the concrete bonus-free configuration. -/
theorem C6_witness :
    ma6.get_dmg_rv.pdf 2
      = ((generate_outcomes_product ma6.attacks).map (fun t =>
          ma6.get_attack_outcome_chance t
            * (ma6.get_attack_outcome_rvs t).pdf 2)).sum :=
  C6_fast_path_eq_enumeration ma6 rfl rfl rfl (by simp [ma6])
    (by
      intro a ha
      simp only [ma6, List.mem_singleton] at ha
      subst ha
      exact ⟨rfl, rfl, by norm_num [mkAtk, Constant_lb],
        by norm_num [mkAtk, Constant_lb], by norm_num [mkAtk, Constant_lb]⟩) 2
